import Mathlib

/-!
Shallow embedding of the HDF container layer of `impactutils`
(`impactutils/io/smcontainers.py` and `impactutils/io/container.py`).

The backing HDF5 store is modelled as a tree of named groups and datasets
(association lists keyed by member name, in insertion order).  Python
exceptions are modelled by the error taxonomy below; a mutating method is a
function `Store -> Except Err _ × Store` whose second component is the
post-state even when the call raised, so that partial mutation before a
raise is visible, exactly as in the source.
-/

namespace ImpactUtils

/-- Error taxonomy.  Each constructor corresponds to the Python exception
raised at the relevant source site: `notFound` for the `LookupError` /
`AttributeError` / `KeyError` raised on absent paths or entries,
`duplicateEntry` for the error raised when a dataset is created over an
existing name, `typeConflict` for the `TypeError` raised on a data-type-lock
mismatch, `shapeMismatch` for the `ValueError` raised by the points-mode
shape check, and `invalidArgument` for the `TypeError` raised on a
non-mapping or otherwise ill-typed argument. -/
inductive Err where
  | notFound
  | duplicateEntry
  | typeConflict
  | shapeMismatch
  | invalidArgument
  | indexError
deriving DecidableEq, Repr

/-- JSON-compatible values: the payload of a dictionary entry
(`json.dumps` / `json.loads` are treated as a trusted inverse pair, so a
dictionary dataset holds its decoded value). -/
inductive JValue where
  | null
  | bool (b : Bool)
  | num (n : Int)
  | str (s : String)
  | arr (xs : List JValue)
  | obj (kvs : List (String × JValue))

/-- Python `j == k` for a decoded JSON value `j` and a `str` `k`: true
exactly when `j` is that string (a non-string value never equals a Python
string). -/
def JValue.eqStr : JValue → String → Bool
  | .str s, k => s == k
  | _, _ => false

/-- Python `x == k` where `x` is `getDataType()`'s result (`None` or a
decoded value) and `k` a `str`: `None` never equals a string. -/
def optEqStr : Option JValue → String → Bool
  | some j, k => j.eqStr k
  | none, _ => false

/-- Element of a numeric/string numpy array.  IEEE NaN is modelled as the
distinguished value `nan`, so that plain equality of model arrays is the
NaN-aware element-wise comparison of the spec. -/
inductive AElem where
  | num (x : Int)
  | nan
  | str (s : String)
deriving DecidableEq, Repr

/-- A numpy array: its shape plus flattened data. -/
structure NArray where
  shape : List Nat
  data : List AElem
deriving DecidableEq, Repr

/-- Scalar value storable in an HDF attribute map. -/
inductive AttrVal where
  | str (s : String)
  | num (x : Int)
deriving DecidableEq, Repr

/-- A flat scalar metadata map attached to an array dataset. -/
abbrev Metadata := List (String × AttrVal)

/-- Payload of an HDF dataset as created by this layer: the UTF-8 JSON blob
of a dictionary, the UTF-8 blob of a string, or a typed array with its
attribute map. -/
inductive Value where
  | jsonBlob (j : JValue)
  | strBlob (s : String)
  | arrData (a : NArray) (attrs : Metadata)

/-- An HDF node: a dataset or a group of named children (in insertion
order; HDF5 member names are unique within a group). -/
inductive Node where
  | dataset (v : Value)
  | group (children : List (String × Node))

/-- The state of an open container: the children of the file's root group. -/
abbrev Store := List (String × Node)

/-- Lookup of a named member in a group's child list. -/
def assocGet {α : Type} (cs : List (String × α)) (k : String) : Option α :=
  match cs with
  | [] => none
  | (k', v) :: rest => if k' = k then some v else assocGet rest k

/-- Replace the binding of `k` (first occurrence), or append it. -/
def assocSet {α : Type} (cs : List (String × α)) (k : String) (v : α) :
    List (String × α) :=
  match cs with
  | [] => [(k, v)]
  | (k', v') :: rest => if k' = k then (k, v) :: rest else (k', v') :: assocSet rest k v

/-- Remove the binding of `k` (first occurrence). -/
def assocDel {α : Type} (cs : List (String × α)) (k : String) : List (String × α) :=
  match cs with
  | [] => []
  | (k', v') :: rest => if k' = k then rest else (k', v') :: assocDel rest k

mutual

/-- `HDFContainerBase._getGroupPaths`: recursively enumerate leaf paths,
joining segments with '/'.  On a dataset, `.keys()` raises and the bare
`except` returns `[]`; an empty group also yields `[]` of sub-paths, so an
empty group is reported by its parent as if it were a leaf. -/
def nodePaths : Node → List String
  | .dataset _ => []
  | .group cs => childPaths cs

def childPaths : List (String × Node) → List String
  | [] => []
  | (k, c) :: rest =>
      (match nodePaths c with
       | [] => [k]
       | p :: ps => (p :: ps).map (fun q => k ++ "/" ++ q)) ++ childPaths rest

end

/-- Resolve a chain of group names below a node (the loop body of
`_getGroup`): `notFound` at the first missing segment (`LookupError`);
descending below a dataset raises (`TypeError` on the membership test),
modelled as `invalidArgument`. -/
def resolveNode : Node → List String → Except Err Node
  | n, [] => .ok n
  | .group cs, g :: rest =>
      match assocGet cs g with
      | some child => resolveNode child rest
      | none => .error .notFound
  | .dataset _, _ :: _ => .error .invalidArgument

/-- `HDFContainerBase._getGroup`: fails with `notFound` when the base
category group was never created, then resolves the chain. -/
def resolveStore (st : Store) (base : String) (groups : List String) :
    Except Err Node :=
  match assocGet st base with
  | none => .error .notFound
  | some n => resolveNode n groups

/-- The loop body of `_makeGroup`: descend the chain, creating missing
groups.  A failure (a dataset sitting at a segment that must be entered) can
only happen when every earlier segment already existed, so no group has been
created yet when the error is raised; returning no state on error is
faithful. -/
def ensureNode : Node → List String → Except Err Node
  | n, [] => .ok n
  | .group cs, g :: rest =>
      match assocGet cs g with
      | some child =>
          match ensureNode child rest with
          | .ok child2 => .ok (.group (assocSet cs g child2))
          | .error e => .error e
      | none =>
          match ensureNode (.group []) rest with
          | .ok child2 => .ok (.group (assocSet cs g child2))
          | .error e => .error e
  | .dataset _, _ :: _ => .error .invalidArgument

/-- `HDFContainerBase._makeGroup`: create-or-resolve the base category
group, then the chain of sub-groups. -/
def ensureStore (st : Store) (base : String) (groups : List String) :
    Except Err Store :=
  match assocGet st base with
  | some n =>
      match ensureNode n groups with
      | .ok n2 => .ok (assocSet st base n2)
      | .error e => .error e
  | none =>
      match ensureNode (.group []) groups with
      | .ok n2 => .ok (assocSet st base n2)
      | .error e => .error e

/-- Create a dataset named `name` at the end of an (already existing) group
chain; fails with `duplicateEntry` when a member of that name exists
(h5py `create_dataset` on an existing name, or `setArray`'s explicit
`LookupError` check). -/
def createNode : Node → List String → String → Value → Except Err Node
  | .group cs, [], name, v =>
      match assocGet cs name with
      | some _ => .error .duplicateEntry
      | none => .ok (.group (assocSet cs name (.dataset v)))
  | .group cs, g :: rest, name, v =>
      match assocGet cs g with
      | some child =>
          match createNode child rest name v with
          | .ok child2 => .ok (.group (assocSet cs g child2))
          | .error e => .error e
      | none => .error .notFound
  | .dataset _, _, _, _ => .error .invalidArgument

def createStore (st : Store) (base : String) (groups : List String)
    (name : String) (v : Value) : Except Err Store :=
  match assocGet st base with
  | some n =>
      match createNode n groups name v with
      | .ok n2 => .ok (assocSet st base n2)
      | .error e => .error e
  | none => .error .notFound

/-- Delete the member `name` at the end of a group chain; `notFound` when
the chain or the member is absent (`LookupError` / `KeyError`). -/
def deleteNode : Node → List String → String → Except Err Node
  | .group cs, [], name =>
      match assocGet cs name with
      | some _ => .ok (.group (assocDel cs name))
      | none => .error .notFound
  | .group cs, g :: rest, name =>
      match assocGet cs g with
      | some child =>
          match deleteNode child rest name with
          | .ok child2 => .ok (.group (assocSet cs g child2))
          | .error e => .error e
      | none => .error .notFound
  | .dataset _, _, _ => .error .invalidArgument

def deleteStore (st : Store) (base : String) (groups : List String)
    (name : String) : Except Err Store :=
  match assocGet st base with
  | some n =>
      match deleteNode n groups name with
      | .ok n2 => .ok (assocSet st base n2)
      | .error e => .error e
  | none => .error .notFound

/-! ### `HDFContainerBase` entry operations (smcontainers.py)

Mutating operations return the outcome together with the post-state; the
post-state on a raise reflects exactly the mutations performed before the
raise (e.g. groups created by `_makeGroup` persist when the subsequent
`create_dataset` fails). -/

/-- `setDictionary`: `_makeGroup('dictionaries', groups)` then
`create_dataset(name, data=json.dumps(dictionary).encode('utf-8'))`.  The
`json.dumps`/`json.loads` pair is treated as a trusted inverse on
JSON-compatible values, so the dataset is modelled as holding the value. -/
def setDictionary (st : Store) (groups : List String) (name : String)
    (j : JValue) : Except Err Unit × Store :=
  match ensureStore st "dictionaries" groups with
  | .error e => (.error e, st)
  | .ok st1 =>
      match createStore st1 "dictionaries" groups name (.jsonBlob j) with
      | .error e => (.error e, st1)
      | .ok st2 => (.ok (), st2)

/-- `getDictionary`: `_getGroup('dictionaries', groups)`, `LookupError` when
`name` is absent, otherwise decode the JSON blob. -/
def getDictionary (st : Store) (groups : List String) (name : String) :
    Except Err JValue :=
  match resolveStore st "dictionaries" groups with
  | .error e => .error e
  | .ok (.dataset _) => .error .invalidArgument
  | .ok (.group cs) =>
      match assocGet cs name with
      | none => .error .notFound
      | some (.dataset (.jsonBlob j)) => .ok j
      | some _ => .error .invalidArgument

/-- `dropDictionary`: `_getGroup`, membership check (`LookupError`), then
`del`. -/
def dropDictionary (st : Store) (groups : List String) (name : String) :
    Except Err Unit × Store :=
  match deleteStore st "dictionaries" groups name with
  | .ok st2 => (.ok (), st2)
  | .error e => (.error e, st)

/-- `getDictionaries`: `[]` when the `dictionaries` group was never created,
else the enumerated leaf paths. -/
def getDictionaries (st : Store) : List String :=
  match assocGet st "dictionaries" with
  | none => []
  | some n => nodePaths n

/-- `setString`: like `setDictionary` but under `strings`, storing the
UTF-8 blob of the string. -/
def setString (st : Store) (groups : List String) (name : String)
    (s : String) : Except Err Unit × Store :=
  match ensureStore st "strings" groups with
  | .error e => (.error e, st)
  | .ok st1 =>
      match createStore st1 "strings" groups name (.strBlob s) with
      | .error e => (.error e, st1)
      | .ok st2 => (.ok (), st2)

/-- `getString`. -/
def getString (st : Store) (groups : List String) (name : String) :
    Except Err String :=
  match resolveStore st "strings" groups with
  | .error e => .error e
  | .ok (.dataset _) => .error .invalidArgument
  | .ok (.group cs) =>
      match assocGet cs name with
      | none => .error .notFound
      | some (.dataset (.strBlob s)) => .ok s
      | some _ => .error .invalidArgument

/-- `getStrings`. -/
def getStrings (st : Store) : List String :=
  match assocGet st "strings" with
  | none => []
  | some n => nodePaths n

/-- `dropString`. -/
def dropString (st : Store) (groups : List String) (name : String) :
    Except Err Unit × Store :=
  match deleteStore st "strings" groups name with
  | .ok st2 => (.ok (), st2)
  | .error e => (.error e, st)

/-- The loop `for key, value in metadata.items(): dset.attrs[key] = value`
building a dataset's attribute map. -/
def buildAttrs (meta : Metadata) : Metadata :=
  meta.foldl (fun acc kv => assocSet acc kv.1 kv.2) []

/-- `setArray`: `_makeGroup('arrays', groups)`, explicit duplicate check
(`LookupError` when the name already exists), then `create_dataset` with
the metadata copied into the attribute map.  A `metadata=None` call is the
empty metadata list. -/
def setArray (st : Store) (groups : List String) (name : String)
    (a : NArray) (meta : Metadata) : Except Err Unit × Store :=
  match ensureStore st "arrays" groups with
  | .error e => (.error e, st)
  | .ok st1 =>
      match createStore st1 "arrays" groups name (.arrData a (buildAttrs meta)) with
      | .error e => (.error e, st1)
      | .ok st2 => (.ok (), st2)

/-- `getArray`: returns the data and the attribute map (iterated in
insertion order). -/
def getArray (st : Store) (groups : List String) (name : String) :
    Except Err (NArray × Metadata) :=
  match resolveStore st "arrays" groups with
  | .error e => .error e
  | .ok (.dataset _) => .error .invalidArgument
  | .ok (.group cs) =>
      match assocGet cs name with
      | none => .error .notFound
      | some (.dataset (.arrData a attrs)) => .ok (a, attrs)
      | some _ => .error .invalidArgument

/-- `getArrays`. -/
def getArrays (st : Store) : List String :=
  match assocGet st "arrays" with
  | none => []
  | some n => nodePaths n

/-- `dropArray`: `_getGroup` then `del array_group[name]` (a `KeyError`
when absent, no explicit pre-check in the source). -/
def dropArray (st : Store) (groups : List String) (name : String) :
    Except Err Unit × Store :=
  match deleteStore st "arrays" groups name with
  | .ok st2 => (.ok (), st2)
  | .error e => (.error e, st)

/-! ### `ShakeMapContainerBase`: singleton metadata slots -/

/-- Python `some_dict[key]`: a `KeyError` on a missing key, a `TypeError`
when subscripting a non-mapping with a string key. -/
def JValue.item : JValue → String → Except Err JValue
  | .obj kvs, k =>
      match assocGet kvs k with
      | some v => .ok v
      | none => .error .notFound
  | _, _ => .error .invalidArgument

/-- `isinstance(x, dict)` for a decoded value. -/
def JValue.isObj : JValue → Bool
  | .obj _ => true
  | _ => false

/-- Sequencing of two mutating statements: if the first raised, the raise
propagates with its post-state; otherwise the second runs on the first's
post-state. -/
def andThen (r : Except Err Unit × Store)
    (f : Store → Except Err Unit × Store) : Except Err Unit × Store :=
  match r with
  | (.error e, st1) => (.error e, st1)
  | (.ok _, st1) => f st1

/-- `setConfig`: drop an existing `config` entry, then store the new one. -/
def setConfig (st : Store) (config : JValue) : Except Err Unit × Store :=
  andThen (if (getDictionaries st).contains "config"
           then dropDictionary st [] "config" else (.ok (), st))
    (fun st1 => setDictionary st1 [] "config" config)

/-- `getConfig`: `AttributeError` when `config` was never set. -/
def getConfig (st : Store) : Except Err JValue :=
  if (getDictionaries st).contains "config" then getDictionary st [] "config"
  else .error .notFound

/-- `setRuptureDict`: drops an existing `rupture` entry BEFORE checking that
the input is a mapping (`TypeError` when it is not), then stores it. -/
def setRuptureDict (st : Store) (rupture : JValue) : Except Err Unit × Store :=
  andThen (if (getDictionaries st).contains "rupture"
           then dropDictionary st [] "rupture" else (.ok (), st))
    (fun st1 =>
      if rupture.isObj then setDictionary st1 [] "rupture" rupture
      else (.error .invalidArgument, st1))

/-- `getRuptureDict`: `AttributeError` when `rupture` was never set. -/
def getRuptureDict (st : Store) : Except Err JValue :=
  if (getDictionaries st).contains "rupture" then getDictionary st [] "rupture"
  else .error .notFound

/-- `setStationDict`: checks that the input is a mapping (`TypeError`)
BEFORE dropping an existing `stations_dict` entry and storing the new
one. -/
def setStationDict (st : Store) (stationdict : JValue) : Except Err Unit × Store :=
  if stationdict.isObj then
    andThen (if (getDictionaries st).contains "stations_dict"
             then dropDictionary st [] "stations_dict" else (.ok (), st))
      (fun st1 => setDictionary st1 [] "stations_dict" stationdict)
  else (.error .invalidArgument, st)

/-- `getStationDict`: `AttributeError` when `stations_dict` was never set. -/
def getStationDict (st : Store) : Except Err JValue :=
  if (getDictionaries st).contains "stations_dict" then
    getDictionary st [] "stations_dict"
  else .error .notFound

/-- `setVersionHistory`: drop-then-create replace semantics. -/
def setVersionHistory (st : Store) (history : JValue) : Except Err Unit × Store :=
  andThen (if (getDictionaries st).contains "version_history"
           then dropDictionary st [] "version_history" else (.ok (), st))
    (fun st1 => setDictionary st1 [] "version_history" history)

/-- `getVersionHistory`: returns the EMPTY mapping (not an error) when
`version_history` was never set. -/
def getVersionHistory (st : Store) : Except Err JValue :=
  if (getDictionaries st).contains "version_history" then
    getDictionary st [] "version_history"
  else .ok (.obj [])

/-! ### `ShakeMapOutputContainer`: data-type lock and IMT storage -/

/-- `setMetadata`: the `info.json` singleton slot, drop-then-create. -/
def setMetadata (st : Store) (info : JValue) : Except Err Unit × Store :=
  andThen (if (getDictionaries st).contains "info.json"
           then dropDictionary st [] "info.json" else (.ok (), st))
    (fun st1 => setDictionary st1 [] "info.json" info)

/-- `getMetadata`: `LookupError` when `info.json` was never set. -/
def getMetadata (st : Store) : Except Err JValue :=
  if (getDictionaries st).contains "info.json" then
    getDictionary st [] "info.json"
  else .error .notFound

/-- `setDataType`: rejects anything but `points`/`grid` (`TypeError`); when
`file_data_type` is already persisted, a differing stored value is a
`TypeError` (type conflict) and an equal one a silent no-op; otherwise the
one-key dictionary is persisted. -/
def setDataType (st : Store) (datatype : String) : Except Err Unit × Store :=
  if datatype ≠ "points" ∧ datatype ≠ "grid" then (.error .invalidArgument, st)
  else if (getDictionaries st).contains "file_data_type" then
    match getDictionary st [] "file_data_type" with
    | .error e => (.error e, st)
    | .ok j =>
        match j.item "type" with
        | .error e => (.error e, st)
        | .ok cur =>
            if cur.eqStr datatype then (.ok (), st)
            else (.error .typeConflict, st)
  else setDictionary st [] "file_data_type" (.obj [("type", .str datatype)])

/-- `getDataType`: the persisted `type` value, or `None` when
`file_data_type` was never written. -/
def getDataType (st : Store) : Except Err (Option JValue) :=
  if (getDictionaries st).contains "file_data_type" then
    match getDictionary st [] "file_data_type" with
    | .error e => .error e
    | .ok j =>
        match j.item "type" with
        | .error e => .error e
        | .ok cur => .ok (some cur)
  else .ok none

/-- `setIMTGrids`: `TypeError` when the container is points-locked, else
lock to grid and write the `mean` and `std` arrays under
`arrays/imts/{component}/{imt}`. -/
def setIMTGrids (st : Store) (imt : String) (mean : NArray) (meanMeta : Metadata)
    (std : NArray) (stdMeta : Metadata) (component : String) :
    Except Err Unit × Store :=
  match getDataType st with
  | .error e => (.error e, st)
  | .ok dt =>
      if optEqStr dt "points" then (.error .typeConflict, st)
      else
        andThen (setDataType st "grid") (fun st1 =>
          andThen (setArray st1 ["imts", component, imt] "mean" mean meanMeta)
            (fun st2 => setArray st2 ["imts", component, imt] "std" std stdMeta))

/-- Result of `getIMTGrids`. -/
structure IMTGridResult where
  mean : NArray
  meanMetadata : Metadata
  std : NArray
  stdMetadata : Metadata
deriving DecidableEq

/-- `getIMTGrids`: `TypeError` whenever the persisted lock is not `grid`
(including when it is unset), else read both arrays and their metadata. -/
def getIMTGrids (st : Store) (imt : String) (component : String) :
    Except Err IMTGridResult :=
  match getDataType st with
  | .error e => .error e
  | .ok dt =>
      if optEqStr dt "grid" then
        match getArray st ["imts", component, imt] "mean" with
        | .error e => .error e
        | .ok (mean, meanMeta) =>
            match getArray st ["imts", component, imt] "std" with
            | .error e => .error e
            | .ok (std, stdMeta) => .ok ⟨mean, meanMeta, std, stdMeta⟩
      else .error .typeConflict

/-- `setIMTArrays`: `TypeError` when grid-locked; then the lock is
persisted to `points` BEFORE the shape check, so a `ValueError` from
mismatched shapes leaves a freshly-set lock behind; on success the five
arrays are written under `arrays/imts/{component}/{imt}`. -/
def setIMTArrays (st : Store) (imt : String) (lons lats ids : NArray)
    (mean : NArray) (meanMeta : Metadata) (std : NArray) (stdMeta : Metadata)
    (component : String) : Except Err Unit × Store :=
  match getDataType st with
  | .error e => (.error e, st)
  | .ok dt =>
      if optEqStr dt "grid" then (.error .typeConflict, st)
      else
        andThen (setDataType st "points") (fun st1 =>
          if lons.shape ≠ lats.shape ∨ lons.shape ≠ ids.shape ∨
             lons.shape ≠ mean.shape ∨ lons.shape ≠ std.shape then
            (.error .shapeMismatch, st1)
          else
            andThen (setArray st1 ["imts", component, imt] "lons" lons []) (fun st2 =>
              andThen (setArray st2 ["imts", component, imt] "lats" lats []) (fun st3 =>
                andThen (setArray st3 ["imts", component, imt] "ids" ids []) (fun st4 =>
                  andThen (setArray st4 ["imts", component, imt] "mean" mean meanMeta)
                    (fun st5 =>
                      setArray st5 ["imts", component, imt] "std" std stdMeta)))))

/-- Result of `getIMTArrays`. -/
structure IMTArrayResult where
  lons : NArray
  lats : NArray
  ids : NArray
  mean : NArray
  meanMetadata : Metadata
  std : NArray
  stdMetadata : Metadata
deriving DecidableEq

/-- `getIMTArrays`: `TypeError` whenever the persisted lock is not
`points`, else read the five arrays. -/
def getIMTArrays (st : Store) (imt : String) (component : String) :
    Except Err IMTArrayResult :=
  match getDataType st with
  | .error e => .error e
  | .ok dt =>
      if optEqStr dt "points" then
        match getArray st ["imts", component, imt] "lons" with
        | .error e => .error e
        | .ok (lons, _) =>
            match getArray st ["imts", component, imt] "lats" with
            | .error e => .error e
            | .ok (lats, _) =>
                match getArray st ["imts", component, imt] "ids" with
                | .error e => .error e
                | .ok (ids, _) =>
                    match getArray st ["imts", component, imt] "mean" with
                    | .error e => .error e
                    | .ok (mean, meanMeta) =>
                        match getArray st ["imts", component, imt] "std" with
                        | .error e => .error e
                        | .ok (std, stdMeta) =>
                            .ok ⟨lons, lats, ids, mean, meanMeta, std, stdMeta⟩
      else .error .typeConflict

/-- The `arrays/imts` node, when both `arrays` and `imts` exist.  The
member tests raise when `arrays` is a dataset (`TypeError`), modelled as
`invalidArgument`. -/
def imtsNode (st : Store) : Except Err (Option Node) :=
  match assocGet st "arrays" with
  | none => .ok none
  | some (.dataset _) => .error .invalidArgument
  | some (.group acs) =>
      match assocGet acs "imts" with
      | none => .ok none
      | some n => .ok (some n)

/-- `.keys()` of a group; on a dataset it raises (`AttributeError`). -/
def nodeKeys : Node → Except Err (List String)
  | .group cs => .ok (cs.map Prod.fst)
  | .dataset _ => .error .invalidArgument

/-- `name in group`; raises on a dataset (`TypeError`). -/
def nodeHasKey (n : Node) (k : String) : Except Err Bool :=
  match n with
  | .group cs => .ok (assocGet cs k).isSome
  | .dataset _ => .error .invalidArgument

/-- One iteration of `getIMTs(None)`'s inner loop over a component name:
look the component up in the `imts` group and append its
`component/imt` paths. -/
def imtListStep (ics : List (String × Node)) (acc : Except Err (List String))
    (comp : String) : Except Err (List String) :=
  match acc with
  | .error e => .error e
  | .ok sofar =>
      match assocGet ics comp with
      | none => .error .notFound
      | some cn =>
          match nodeKeys cn with
          | .error e => .error e
          | .ok imtlist => .ok (sofar ++ imtlist.map (fun i => comp ++ "/" ++ i))

/-- `getIMTs`: `[]` when `arrays/imts` was never created; with a component,
the component group is subscripted directly, so a missing component is a
`KeyError`; without one, every `component/imt` pair is enumerated. -/
def getIMTs (st : Store) (component : Option String) :
    Except Err (List String) :=
  match imtsNode st with
  | .error e => .error e
  | .ok none => .ok []
  | .ok (some imts) =>
      match component with
      | none =>
          match imts with
          | .dataset _ => .error .invalidArgument
          | .group ics => (ics.map Prod.fst).foldl (imtListStep ics) (.ok [])
      | some comp =>
          match imts with
          | .dataset _ => .error .invalidArgument
          | .group ics =>
              match assocGet ics comp with
              | none => .error .notFound
              | some cn => nodeKeys cn

/-- One iteration of `getComponents(imt)`'s loop over a component name:
keep the component when its group contains the IMT. -/
def componentStep (ics : List (String × Node)) (i : String)
    (acc : Except Err (List String)) (comp : String) :
    Except Err (List String) :=
  match acc with
  | .error e => .error e
  | .ok sofar =>
      match assocGet ics comp with
      | none => .error .notFound
      | some cn =>
          match nodeHasKey cn i with
          | .error e => .error e
          | .ok b => .ok (if b then sofar ++ [comp] else sofar)

/-- `getComponents`: `[]` when `arrays/imts` was never created; without an
IMT, the direct children of `arrays/imts`; with one, only the components
whose group contains that IMT. -/
def getComponents (st : Store) (imt : Option String) :
    Except Err (List String) :=
  match imtsNode st with
  | .error e => .error e
  | .ok none => .ok []
  | .ok (some imts) =>
      match imt with
      | none => nodeKeys imts
      | some i =>
          match imts with
          | .dataset _ => .error .invalidArgument
          | .group ics => (ics.map Prod.fst).foldl (componentStep ics i) (.ok [])

/-- One iteration of `dropIMT`'s loop: `del ...['imts'][comp][imt_name]`,
propagating a raise with the state reached so far. -/
def dropIMTStep (imt : String) (acc : Except Err Unit × Store)
    (comp : String) : Except Err Unit × Store :=
  match acc with
  | (.error e, st1) => (.error e, st1)
  | (.ok _, st1) =>
      match deleteStore st1 "arrays" ["imts", comp] imt with
      | .ok st2 => (.ok (), st2)
      | .error e => (.error e, st1)

/-- `dropIMT`: `LookupError` when `arrays/imts` was never created, else
delete the IMT from every component group that contains it. -/
def dropIMT (st : Store) (imt : String) : Except Err Unit × Store :=
  match imtsNode st with
  | .error e => (.error e, st)
  | .ok none => (.error .notFound, st)
  | .ok (some _) =>
      match getComponents st (some imt) with
      | .error e => (.error e, st)
      | .ok comps => comps.foldl (dropIMTStep imt) ((.ok (), st))

/-! ### container.py: DataFrame storage (`HDFContainer.setDataFrame` /
`getDataFrame`)

`TIMEFMT = '%Y-%m-%d %H:%M:%S.%f'`.  Timestamps are modelled at microsecond
precision (the precision of the persisted text form). -/

structure Timestamp where
  year : Nat
  month : Nat
  day : Nat
  hour : Nat
  minute : Nat
  second : Nat
  micro : Nat
deriving DecidableEq, Repr

/-- Decimal digit to its character (48 is the code of `0`; callers pass
values `< 10`). -/
def digitChar (n : Nat) : Char := Char.ofNat (48 + n % 10)

/-- Character to decimal digit (none on a non-digit). -/
def digitVal (c : Char) : Option Nat :=
  if 48 ≤ c.toNat ∧ c.toNat ≤ 57 then some (c.toNat - 48) else none

def pad2 (n : Nat) : List Char := [digitChar (n / 10 % 10), digitChar (n % 10)]

def pad4 (n : Nat) : List Char :=
  [digitChar (n / 1000 % 10), digitChar (n / 100 % 10),
   digitChar (n / 10 % 10), digitChar (n % 10)]

def pad6 (n : Nat) : List Char :=
  [digitChar (n / 100000 % 10), digitChar (n / 10000 % 10),
   digitChar (n / 1000 % 10), digitChar (n / 100 % 10),
   digitChar (n / 10 % 10), digitChar (n % 10)]

/-- `datetime.strftime(TIMEFMT)` for four-digit years: the fixed-width text
`YYYY-MM-DD HH:MM:SS.ffffff`. -/
def fmtTimestamp (t : Timestamp) : String :=
  ⟨pad4 t.year ++ '-' :: (pad2 t.month ++ '-' :: (pad2 t.day ++ ' ' ::
   (pad2 t.hour ++ ':' :: (pad2 t.minute ++ ':' :: (pad2 t.second ++ '.' ::
   pad6 t.micro)))))⟩

/-- The whitespace class of CPython's `re` module for `str` patterns
(`\s`): the literal space in the format is compiled to `\s+`.  Covers the
ASCII forms and the Unicode whitespace code points. -/
def isPySpace (c : Char) : Bool :=
  (9 ≤ c.toNat && c.toNat ≤ 13) || (28 ≤ c.toNat && c.toNat ≤ 32) ||
  c.toNat == 0x85 || c.toNat == 0xA0 || c.toNat == 0x1680 ||
  (0x2000 ≤ c.toNat && c.toNat ≤ 0x200A) ||
  c.toNat == 0x2028 || c.toNat == 0x2029 || c.toNat == 0x202F ||
  c.toNat == 0x205F || c.toNat == 0x3000

/-- The greedy tail of `\s+`. -/
def dropSpaces : List Char → List Char
  | c :: rest => if isPySpace c then dropSpaces rest else c :: rest
  | [] => []

/-- `\s+`: at least one whitespace character, consumed greedily (the next
field starts with a digit, so greediness never overshoots). -/
def parseSpaces1 : List Char → Option (List Char)
  | c :: rest => if isPySpace c then some (dropSpaces rest) else none
  | [] => none

/-- A literal character of the format (`-`, `:`, `.`). -/
def parseLit (c : Char) : List Char → Option (List Char)
  | x :: rest => if x = c then some rest else none
  | [] => none

/-- `%Y` in `_strptime`: the regex `\d\d\d\d`, exactly four digits. -/
def parse4Digits : List Char → Option (Nat × List Char)
  | c1 :: c2 :: c3 :: c4 :: rest =>
      match digitVal c1, digitVal c2, digitVal c3, digitVal c4 with
      | some v1, some v2, some v3, some v4 =>
          some (1000 * v1 + 100 * v2 + 10 * v3 + v4, rest)
      | _, _, _, _ => none
  | _ => none

/-- A one-or-two-digit numeric field of `_strptime`.  The regexes
(`1[0-2]|0[1-9]|[1-9]` for `%m`, `3[01]|[12]\d|0[1-9]|[1-9]` for `%d`,
`2[0-3]|[0-1]\d|\d` for `%H`, `[0-5]\d|\d` for `%M`, `6[0-1]|[0-5]\d|\d`
for `%S`) all follow the same scheme: a two-digit form with the value in
`lo2..hi2`, tried first, else a single digit in `lo1..hi1`.  Each field is
followed by a non-digit literal, so the regex backtracking from a rejected
two-digit alternative to the one-digit one (leaving a digit before the
literal) can never rescue a match — this first-match formulation is
equivalent. -/
def parseField2 (lo2 hi2 lo1 hi1 : Nat) : List Char → Option (Nat × List Char)
  | c1 :: c2 :: rest =>
      match digitVal c1, digitVal c2 with
      | some v1, some v2 =>
          if lo2 ≤ 10 * v1 + v2 ∧ 10 * v1 + v2 ≤ hi2 then
            some (10 * v1 + v2, rest)
          else if lo1 ≤ v1 ∧ v1 ≤ hi1 then some (v1, c2 :: rest)
          else none
      | some v1, none =>
          if lo1 ≤ v1 ∧ v1 ≤ hi1 then some (v1, c2 :: rest) else none
      | none, _ => none
  | [c1] =>
      match digitVal c1 with
      | some v1 => if lo1 ≤ v1 ∧ v1 ≤ hi1 then some (v1, []) else none
      | none => none
  | [] => none

/-- The decimal value of a digit list (none on a non-digit). -/
def digitsVal (acc : Nat) : List Char → Option Nat
  | [] => some acc
  | c :: rest =>
      match digitVal c with
      | some v => digitsVal (10 * acc + v) rest
      | none => none

/-- `%f` at the end of the format: the regex `[0-9]{1,6}` followed by
`_strptime`'s whole-string check (`unconverted data remains`), so the
remaining text must be one to six digits; the value is zero-padded on the
right to microseconds. -/
def parseMicroFrac (cs : List Char) : Option Nat :=
  if 1 ≤ cs.length ∧ cs.length ≤ 6 then
    match digitsVal 0 cs with
    | some v => some (v * 10 ^ (6 - cs.length))
    | none => none
  else none

/-- The Gregorian leap-year rule used by `datetime`. -/
def isLeap (y : Nat) : Bool := y % 4 == 0 && (y % 100 != 0 || y % 400 == 0)

/-- `calendar`-style month length, as validated by the `datetime`
constructor. -/
def daysInMonth (y m : Nat) : Nat :=
  if m = 2 then (if isLeap y then 29 else 28)
  else if m = 4 ∨ m = 6 ∨ m = 9 ∨ m = 11 then 30
  else 31

/-- `HistoricTime.strptime(s, TIMEFMT)` with
`TIMEFMT = '%Y-%m-%d %H:%M:%S.%f'`: `_strptime` compiles the format to
`(\d\d\d\d)-(m)-(d)\s+(H):(M):(S)\.([0-9]{1,6})` with the field regexes of
`parseField2`, requires the whole string to be consumed, and hands the
fields to the `datetime` constructor, which rejects year 0, a day beyond
the month's length, and the leap seconds 60/61 admitted by the `%S`
regex (that `ValueError` is raised either way, so a construction failure
and a match failure are the same outcome for callers). -/
def parseChars (cs : List Char) : Option Timestamp :=
  match parse4Digits cs with
  | some (y, r1) =>
    match parseLit '-' r1 with
    | some r2 =>
      match parseField2 1 12 1 9 r2 with
      | some (mo, r3) =>
        match parseLit '-' r3 with
        | some r4 =>
          match parseField2 1 31 1 9 r4 with
          | some (d, r5) =>
            match parseSpaces1 r5 with
            | some r6 =>
              match parseField2 0 23 0 9 r6 with
              | some (h, r7) =>
                match parseLit ':' r7 with
                | some r8 =>
                  match parseField2 0 59 0 9 r8 with
                  | some (mi, r9) =>
                    match parseLit ':' r9 with
                    | some r10 =>
                      match parseField2 0 61 0 9 r10 with
                      | some (s, r11) =>
                        match parseLit '.' r11 with
                        | some r12 =>
                          match parseMicroFrac r12 with
                          | some u =>
                              if 1 ≤ y ∧ d ≤ daysInMonth y mo ∧ s ≤ 59 then
                                some ⟨y, mo, d, h, mi, s, u⟩
                              else none
                          | none => none
                        | none => none
                      | none => none
                    | none => none
                  | none => none
                | none => none
              | none => none
            | none => none
          | none => none
        | none => none
      | none => none
    | none => none
  | none => none

def parseTimestamp (s : String) : Option Timestamp := parseChars s.data

/-- A timestamp representable as a Python `datetime` whose `TIMEFMT` text
round-trips: four-digit year (strftime pads `%Y` to four digits only in
this range and strptime demands exactly four), month/day/hour/minute/
second in `datetime`'s ranges with the day validated against the month's
length, microseconds below one million. -/
def TSValid (t : Timestamp) : Prop :=
  1000 ≤ t.year ∧ t.year ≤ 9999 ∧ 1 ≤ t.month ∧ t.month ≤ 12 ∧
  1 ≤ t.day ∧ t.day ≤ daysInMonth t.year t.month ∧
  t.hour ≤ 23 ∧ t.minute ≤ 59 ∧ t.second ≤ 59 ∧ t.micro ≤ 999999

instance (t : Timestamp) : Decidable (TSValid t) := by
  unfold TSValid
  infer_instance

/-- One column of a pandas DataFrame (columns are homogeneously typed). -/
inductive Column where
  | strCol (xs : List String)
  | timeCol (xs : List Timestamp)
  | numCol (xs : List Int)
deriving DecidableEq, Repr

/-- A rectangular table: named columns in order. -/
abbrev DataFrame := List (String × Column)

/-- Whether a column carries datetime values. -/
def Column.isTime : Column → Bool
  | .timeCol _ => true
  | _ => false

/-- `HDFContainer.setDataFrame`'s effect on one nonempty column:
`dataframe.to_dict('list')` followed by `_dict2h5group`/`_encode_list`
turns every datetime value into its `TIMEFMT` text; strings and numbers are
stored unchanged.  NO record of which columns were datetime-typed is
persisted alongside the table.  The `column[0]` guard that precedes this
transform lives in `setDataFrame`. -/
def storeColumn : Column → Column
  | .timeCol ts => .strCol (ts.map fmtTimestamp)
  | c => c

/-- The number of rows of a column. -/
def colLen : Column → Nat
  | .strCol xs => xs.length
  | .timeCol xs => xs.length
  | .numCol xs => xs.length

/-- `HDFContainer.setDataFrame`: `to_dict('list')`, then the per-column
loop tests `isinstance(column[0], pd.Timestamp)` with an unguarded
`column[0]` — any empty column raises `IndexError` there, before
`create_group` runs, so nothing is stored; otherwise datetime columns are
converted and `_dict2h5group` writes every column. -/
def setDataFrame (df : DataFrame) : Except Err DataFrame :=
  if df.any (fun kc => colLen kc.2 == 0) then .error .indexError
  else .ok (df.map (fun kc => (kc.1, storeColumn kc.2)))

/-- `[HistoricTime.strptime(v, TIMEFMT) for v in value]` under the `try`:
all values parse, or the whole conversion fails. -/
def parseAll : List String → Option (List Timestamp)
  | [] => some []
  | s :: rest =>
      match parseTimestamp s, parseAll rest with
      | some t, some ts => some (t :: ts)
      | _, _ => none

/-- `HDFContainer.getDataFrame`'s per-column loop: try
`HistoricTime.strptime(value[0], TIMEFMT)` and, on success of every element,
replace the column by the parsed datetimes; any failure (empty column,
non-string cell, one non-parsing text) is swallowed by the bare `except`
and the column is left as stored. -/
def readColumn : Column → Column
  | .strCol ss =>
      if ss.isEmpty then .strCol ss
      else
        match parseAll ss with
        | some ts => .timeCol ts
        | none => .strCol ss
  | c => c

def getDataFrame (sf : DataFrame) : DataFrame :=
  sf.map (fun kc => (kc.1, readColumn kc.2))

/-- `arrays/imts` exists (the guard tested by `getIMTs`, `getComponents`
and `dropIMT`). -/
def hasIMTSubtree (st : Store) : Bool :=
  match assocGet st "arrays" with
  | some (.group acs) => (assocGet acs "imts").isSome
  | _ => false

/-- The value `getDataType` computes from the `dictionaries` child of the
root alone (membership of the bare `file_data_type` path plus the read of
the entry). -/
def lockRead : Option Node → Except Err (Option JValue)
  | none => .ok none
  | some n =>
      if (nodePaths n).contains "file_data_type" then
        match n with
        | .dataset _ => .error .invalidArgument
        | .group cs =>
            match assocGet cs "file_data_type" with
            | none => .error .notFound
            | some (.dataset (.jsonBlob j)) =>
                match j.item "type" with
                | .error e => .error e
                | .ok cur => .ok (some cur)
            | some _ => .error .invalidArgument
      else .ok none

/-- The children of the `arrays/imts` group, when the subtree exists and
both levels are groups. -/
def imtsChildren (st : Store) : Option (List (String × Node)) :=
  match assocGet st "arrays" with
  | some (.group acs) =>
      match assocGet acs "imts" with
      | some (.group ics) => some ics
      | _ => none
  | _ => none

/-- `imt_name in component_group` as a total function on nodes. -/
def hasNodeKey (n : Node) (k : String) : Bool :=
  match n with
  | .group cs => (assocGet cs k).isSome
  | .dataset _ => false

/-- The mutating operations of the ShakeMap schema layer (the spec's
SchemaLayer: singleton slots, the data-type lock, and IMT storage).  The
generic per-category entry API of the base container sits below this
layer. -/
inductive SMOp where
  | opConfig (j : JValue)
  | opRupture (j : JValue)
  | opStation (j : JValue)
  | opVersionHistory (j : JValue)
  | opMetadata (j : JValue)
  | opDataType (k : String)
  | opIMTGrids (imt : String) (mean : NArray) (mm : Metadata) (std : NArray)
      (sm : Metadata) (comp : String)
  | opIMTArrays (imt : String) (lons lats ids mean : NArray) (mm : Metadata)
      (std : NArray) (sm : Metadata) (comp : String)
  | opDropIMT (imt : String)

def applySMOp (op : SMOp) (st : Store) : Except Err Unit × Store :=
  match op with
  | .opConfig j => setConfig st j
  | .opRupture j => setRuptureDict st j
  | .opStation j => setStationDict st j
  | .opVersionHistory j => setVersionHistory st j
  | .opMetadata j => setMetadata st j
  | .opDataType k => setDataType st k
  | .opIMTGrids imt mean mm std sm comp => setIMTGrids st imt mean mm std sm comp
  | .opIMTArrays imt lons lats ids mean mm std sm comp =>
      setIMTArrays st imt lons lats ids mean mm std sm comp
  | .opDropIMT imt => dropIMT st imt

/-- The data-type-lock slot is truly clear: the `dictionaries` group (when
it exists) is a group with no `file_data_type` member. -/
def lockSlotFree (st : Store) : Prop :=
  match assocGet st "dictionaries" with
  | none => True
  | some (.group cs) => assocGet cs "file_data_type" = none
  | some (.dataset _) => False

/-- A column that can be written (nonempty — an empty column makes
`setDataFrame` raise `IndexError`) and whose persisted text round-trips: a
string column contains at least one value not in the timestamp format (so
the read-side inference leaves it alone), a datetime column holds
representable timestamps, a numeric column only needs rows. -/
def ColSafe : Column → Prop
  | .strCol ss => ss ≠ [] ∧ ∃ s ∈ ss, parseTimestamp s = none
  | .timeCol ts => ts ≠ [] ∧ ∀ t ∈ ts, TSValid t
  | .numCol xs => xs ≠ []

/-! ### Concrete fixtures used by the verification scenarios -/

def arr3 : NArray := ⟨[3], [.num 1, .num 2, .num 3]⟩

def arr2 : NArray := ⟨[2], [.num 1, .num 2]⟩

def ids3 : NArray := ⟨[3], [.str "a", .str "b", .str "c"]⟩

def zeros3 : NArray := ⟨[3], [.num 0, .num 0, .num 0]⟩

/-- A container whose data-type lock is persisted as `grid`. -/
def gridLockedStore : Store :=
  [("dictionaries", .group [("file_data_type",
    .dataset (.jsonBlob (.obj [("type", .str "grid")])))])]

/-- A container whose data-type lock is persisted as `points`. -/
def pointsLockedStore : Store :=
  [("dictionaries", .group [("file_data_type",
    .dataset (.jsonBlob (.obj [("type", .str "points")])))])]

/-- A container holding one rupture dictionary. -/
def ruptureStore : Store := (setRuptureDict [] (.obj [("k", .str "v")])).2

/-- Components `A` and `B` both contain the IMT `pga`. -/
def twoCompStore : Store :=
  [("arrays", .group [("imts", .group [
    ("A", .group [("pga", .group [])]),
    ("B", .group [("pga", .group [])])])])]

/-- A container where `arrays/imts/A` exists but is empty: a grid write
followed by `dropIMT` leaves the component group behind. -/
def emptyComponentStore : Store :=
  (dropIMT (setIMTGrids [] "pga" zeros3 [] zeros3 [] "A").2 "pga").2

/-! ## Lemmas about the store primitives -/

theorem assocGet_assocSet_self {α : Type} (cs : List (String × α)) (k : String)
    (v : α) : assocGet (assocSet cs k v) k = some v := by
  induction cs with
  | nil => simp [assocSet, assocGet]
  | cons hd tl ih =>
      obtain ⟨k', v'⟩ := hd
      by_cases h : k' = k
      · simp [assocSet, assocGet, h]
      · simp [assocSet, assocGet, h, ih]

theorem assocGet_assocSet_ne {α : Type} (cs : List (String × α)) (k k' : String)
    (v : α) (h : k ≠ k') : assocGet (assocSet cs k v) k' = assocGet cs k' := by
  induction cs with
  | nil => simp [assocSet, assocGet, h]
  | cons hd tl ih =>
      obtain ⟨k0, v0⟩ := hd
      by_cases h0 : k0 = k
      · subst h0; simp [assocSet, assocGet, h]
      · simp only [assocSet, if_neg h0]
        by_cases h1 : k0 = k'
        · simp [assocGet, h1]
        · simp [assocGet, h1, ih]

theorem assocGet_assocDel_ne {α : Type} (cs : List (String × α)) (k k' : String)
    (h : k ≠ k') : assocGet (assocDel cs k) k' = assocGet cs k' := by
  induction cs with
  | nil => simp [assocDel]
  | cons hd tl ih =>
      obtain ⟨k0, v0⟩ := hd
      by_cases h0 : k0 = k
      · subst h0; simp [assocDel, assocGet, h]
      · simp only [assocDel, if_neg h0]
        by_cases h1 : k0 = k'
        · simp [assocGet, h1]
        · simp [assocGet, h1, ih]

theorem assocGet_eq_none_of_not_mem {α : Type} (cs : List (String × α))
    (k : String) (h : k ∉ cs.map Prod.fst) : assocGet cs k = none := by
  induction cs with
  | nil => rfl
  | cons hd tl ih =>
      simp only [List.map_cons, List.mem_cons] at h
      push_neg at h
      have h1 : hd.1 ≠ k := fun e => h.1 e.symm
      obtain ⟨k0, v0⟩ := hd
      simp only [assocGet, if_neg h1]
      exact ih h.2

theorem assocSet_eq_append {α : Type} (cs : List (String × α)) (k : String)
    (v : α) (h : assocGet cs k = none) : assocSet cs k v = cs ++ [(k, v)] := by
  induction cs with
  | nil => rfl
  | cons hd tl ih =>
      obtain ⟨k0, v0⟩ := hd
      by_cases h0 : k0 = k
      · simp [assocGet, h0] at h
      · simp only [assocGet, if_neg h0] at h
        simp [assocSet, if_neg h0, ih h]

/-- Creating a dataset leaves it readable at its path. -/
theorem createNode_resolve (groups : List String) :
    ∀ (n n' : Node) (name : String) (v : Value),
      createNode n groups name v = .ok n' →
      ∃ cs, resolveNode n' groups = .ok (.group cs) ∧
        assocGet cs name = some (.dataset v) := by
  induction groups with
  | nil =>
      intro n n' name v h
      match n with
      | .dataset _ => simp [createNode] at h
      | .group cs =>
          simp only [createNode] at h
          cases hg : assocGet cs name with
          | some w => simp only [hg] at h; simp at h
          | none =>
              simp only [hg] at h
              simp only [Except.ok.injEq] at h
              subst h
              exact ⟨_, rfl, assocGet_assocSet_self _ _ _⟩
  | cons g rest ih =>
      intro n n' name v h
      match n with
      | .dataset _ => simp [createNode] at h
      | .group cs =>
          simp only [createNode] at h
          cases hg : assocGet cs g with
          | none => simp only [hg] at h; simp at h
          | some child =>
              simp only [hg] at h
              cases hc : createNode child rest name v with
              | error e => simp only [hc] at h; simp at h
              | ok child2 =>
                  simp only [hc] at h
                  simp only [Except.ok.injEq] at h
                  subst h
                  obtain ⟨cs2, hres, hget⟩ := ih child child2 name v hc
                  refine ⟨cs2, ?_, hget⟩
                  simp only [resolveNode, assocGet_assocSet_self]
                  exact hres

theorem createStore_resolve (st st' : Store) (base : String)
    (groups : List String) (name : String) (v : Value)
    (h : createStore st base groups name v = .ok st') :
    ∃ cs, resolveStore st' base groups = .ok (.group cs) ∧
      assocGet cs name = some (.dataset v) := by
  unfold createStore at h
  cases hb : assocGet st base with
  | none => simp only [hb] at h; simp at h
  | some n =>
      simp only [hb] at h
      cases hc : createNode n groups name v with
      | error e => simp only [hc] at h; simp at h
      | ok n2 =>
          simp only [hc] at h
          simp only [Except.ok.injEq] at h
          subst h
          obtain ⟨cs, h1, h2⟩ := createNode_resolve groups n n2 name v hc
          refine ⟨cs, ?_, h2⟩
          unfold resolveStore
          rw [assocGet_assocSet_self]
          exact h1

/-- `setDictionary` then `getDictionary` at the same path returns the
stored value. -/
theorem setDictionary_get (st : Store) (groups : List String) (name : String)
    (j : JValue) (st2 : Store)
    (h : setDictionary st groups name j = (.ok (), st2)) :
    getDictionary st2 groups name = .ok j := by
  unfold setDictionary at h
  cases he : ensureStore st "dictionaries" groups with
  | error e => simp only [he] at h; simp at h
  | ok st1 =>
      simp only [he] at h
      cases hc : createStore st1 "dictionaries" groups name (.jsonBlob j) with
      | error e => simp only [hc] at h; simp at h
      | ok stc =>
          simp only [hc] at h
          have h2 : stc = st2 := congrArg Prod.snd h
          subst h2
          obtain ⟨cs, h1, hget⟩ :=
            createStore_resolve st1 stc "dictionaries" groups name (.jsonBlob j) hc
          unfold getDictionary
          simp only [h1, hget]

/-- `setString` then `getString` at the same path returns the stored
string. -/
theorem setString_get (st : Store) (groups : List String) (name : String)
    (s : String) (st2 : Store)
    (h : setString st groups name s = (.ok (), st2)) :
    getString st2 groups name = .ok s := by
  unfold setString at h
  cases he : ensureStore st "strings" groups with
  | error e => simp only [he] at h; simp at h
  | ok st1 =>
      simp only [he] at h
      cases hc : createStore st1 "strings" groups name (.strBlob s) with
      | error e => simp only [hc] at h; simp at h
      | ok stc =>
          simp only [hc] at h
          have h2 : stc = st2 := congrArg Prod.snd h
          subst h2
          obtain ⟨cs, h1, hget⟩ :=
            createStore_resolve st1 stc "strings" groups name (.strBlob s) hc
          unfold getString
          simp only [h1, hget]

/-- Building an attribute map from a metadata dictionary with distinct
keys reproduces the dictionary. -/
theorem buildAttrs_self (meta : Metadata) (h : (meta.map Prod.fst).Nodup) :
    buildAttrs meta = meta := by
  have main : ∀ (m acc : Metadata), (m.map Prod.fst).Nodup →
      (∀ p ∈ m, p.1 ∉ acc.map Prod.fst) →
      m.foldl (fun a kv => assocSet a kv.1 kv.2) acc = acc ++ m := by
    intro m
    induction m with
    | nil => intro acc _ _; simp
    | cons hd tl ih =>
        intro acc hn hmem
        obtain ⟨k, v⟩ := hd
        simp only [List.map_cons, List.nodup_cons] at hn
        simp only [List.foldl_cons]
        rw [assocSet_eq_append acc k v
          (assocGet_eq_none_of_not_mem acc k (hmem (k, v) (by simp)))]
        rw [ih (acc ++ [(k, v)]) hn.2 ?side]
        · simp
        case side =>
          intro p hp
          simp only [List.map_append, List.mem_append]
          push_neg
          refine ⟨hmem p (List.mem_cons_of_mem _ hp), ?_⟩
          simp only [List.map_cons, List.map_nil, List.mem_singleton]
          intro e
          exact hn.1 (e ▸ List.mem_map_of_mem Prod.fst hp)
  have := main meta [] h (by simp)
  simpa [buildAttrs] using this

/-- `setArray` then `getArray` at the same path returns the stored array
and (for a metadata dictionary, whose keys are distinct) the stored
metadata. -/
theorem setArray_get (st : Store) (groups : List String) (name : String)
    (a : NArray) (meta : Metadata) (st2 : Store)
    (hn : (meta.map Prod.fst).Nodup)
    (h : setArray st groups name a meta = (.ok (), st2)) :
    getArray st2 groups name = .ok (a, meta) := by
  unfold setArray at h
  cases he : ensureStore st "arrays" groups with
  | error e => simp only [he] at h; simp at h
  | ok st1 =>
      simp only [he] at h
      cases hc : createStore st1 "arrays" groups name (.arrData a (buildAttrs meta)) with
      | error e => simp only [hc] at h; simp at h
      | ok stc =>
          simp only [hc] at h
          have h2 : stc = st2 := congrArg Prod.snd h
          subst h2
          obtain ⟨cs, h1, hget⟩ := createStore_resolve st1 stc "arrays" groups name
            (.arrData a (buildAttrs meta)) hc
          unfold getArray
          simp only [h1, hget, buildAttrs_self meta hn]

/-! ## Frame lemmas: operations under one base category leave the other
top-level children untouched -/

theorem ensureStore_frame (st st1 : Store) (base b : String)
    (groups : List String) (hb : b ≠ base)
    (h : ensureStore st base groups = .ok st1) :
    assocGet st1 b = assocGet st b := by
  unfold ensureStore at h
  cases hg : assocGet st base with
  | some n =>
      simp only [hg] at h
      cases he : ensureNode n groups with
      | error e => simp only [he] at h; simp at h
      | ok n2 =>
          simp only [he, Except.ok.injEq] at h
          subst h
          exact assocGet_assocSet_ne st base b n2 (fun e => hb e.symm)
  | none =>
      simp only [hg] at h
      cases he : ensureNode (.group []) groups with
      | error e => simp only [he] at h; simp at h
      | ok n2 =>
          simp only [he, Except.ok.injEq] at h
          subst h
          exact assocGet_assocSet_ne st base b n2 (fun e => hb e.symm)

theorem createStore_frame (st st1 : Store) (base b : String)
    (groups : List String) (name : String) (v : Value) (hb : b ≠ base)
    (h : createStore st base groups name v = .ok st1) :
    assocGet st1 b = assocGet st b := by
  unfold createStore at h
  cases hg : assocGet st base with
  | none => simp only [hg] at h; simp at h
  | some n =>
      simp only [hg] at h
      cases hc : createNode n groups name v with
      | error e => simp only [hc] at h; simp at h
      | ok n2 =>
          simp only [hc, Except.ok.injEq] at h
          subst h
          exact assocGet_assocSet_ne st base b n2 (fun e => hb e.symm)

theorem deleteStore_frame (st st1 : Store) (base b : String)
    (groups : List String) (name : String) (hb : b ≠ base)
    (h : deleteStore st base groups name = .ok st1) :
    assocGet st1 b = assocGet st b := by
  unfold deleteStore at h
  cases hg : assocGet st base with
  | none => simp only [hg] at h; simp at h
  | some n =>
      simp only [hg] at h
      cases hc : deleteNode n groups name with
      | error e => simp only [hc] at h; simp at h
      | ok n2 =>
          simp only [hc, Except.ok.injEq] at h
          subst h
          exact assocGet_assocSet_ne st base b n2 (fun e => hb e.symm)

/-- Whatever a `setDictionary` call does (succeed or raise), the non-
`dictionaries` top-level children are unchanged. -/
theorem setDictionary_frame (st : Store) (groups : List String) (name : String)
    (j : JValue) (b : String) (hb : b ≠ "dictionaries") :
    assocGet (setDictionary st groups name j).2 b = assocGet st b := by
  unfold setDictionary
  cases he : ensureStore st "dictionaries" groups with
  | error e => simp only [he]
  | ok st1 =>
      simp only [he]
      have f1 := ensureStore_frame st st1 "dictionaries" b groups hb he
      cases hc : createStore st1 "dictionaries" groups name (.jsonBlob j) with
      | error e => simp only [hc]; exact f1
      | ok st2 =>
          simp only [hc]
          have f2 := createStore_frame st1 st2 "dictionaries" b groups name
            (.jsonBlob j) hb hc
          exact f2.trans f1

/-- Whatever a `dropDictionary` call does, the non-`dictionaries`
top-level children are unchanged. -/
theorem dropDictionary_frame (st : Store) (groups : List String) (name : String)
    (b : String) (hb : b ≠ "dictionaries") :
    assocGet (dropDictionary st groups name).2 b = assocGet st b := by
  unfold dropDictionary
  cases hd : deleteStore st "dictionaries" groups name with
  | error e => simp only [hd]
  | ok st2 =>
      simp only [hd]
      exact deleteStore_frame st st2 "dictionaries" b groups name hb hd

/-- Whatever a `setArray` call does, the non-`arrays` top-level children
are unchanged. -/
theorem setArray_frame (st : Store) (groups : List String) (name : String)
    (a : NArray) (meta : Metadata) (b : String) (hb : b ≠ "arrays") :
    assocGet (setArray st groups name a meta).2 b = assocGet st b := by
  unfold setArray
  cases he : ensureStore st "arrays" groups with
  | error e => simp only [he]
  | ok st1 =>
      simp only [he]
      have f1 := ensureStore_frame st st1 "arrays" b groups hb he
      cases hc : createStore st1 "arrays" groups name (.arrData a (buildAttrs meta)) with
      | error e => simp only [hc]; exact f1
      | ok st2 =>
          simp only [hc]
          have f2 := createStore_frame st1 st2 "arrays" b groups name _ hb hc
          exact f2.trans f1

/-! ## Characterizing the enumerated paths and the data-type lock -/

/-- A name with no '/' never equals a slash-joined path. -/
theorem ne_append_slash (k a b : String) (hk : ('/' : Char) ∉ k.data) :
    k ≠ a ++ "/" ++ b := by
  intro h
  apply hk
  rw [h]
  show ('/' : Char) ∈ (a ++ "/" ++ b).data
  have hd : (a ++ "/" ++ b).data = (a.data ++ ['/']) ++ b.data := rfl
  rw [hd]
  simp

/-- A '/'-free name occurs among a group's enumerated paths exactly when a
child of that name with no sub-paths (a dataset or an empty group) occurs
in the child list. -/
theorem mem_childPaths_iff (k : String) (hk : ('/' : Char) ∉ k.data) :
    ∀ cs : List (String × Node),
      k ∈ childPaths cs ↔ ∃ p ∈ cs, p.1 = k ∧ nodePaths p.2 = [] := by
  intro cs
  induction cs with
  | nil => simp [childPaths]
  | cons hd tl ih =>
      obtain ⟨k0, n0⟩ := hd
      rw [childPaths]
      cases hp : nodePaths n0 with
      | nil =>
          constructor
          · intro hmem
            rcases List.mem_append.mp hmem with hin | hin
            · have he : k = k0 := by simpa using hin
              exact ⟨(k0, n0), List.mem_cons_self _ _, he.symm, hp⟩
            · obtain ⟨p, hmem2, he, hn⟩ := ih.mp hin
              exact ⟨p, List.mem_cons_of_mem _ hmem2, he, hn⟩
          · rintro ⟨p, hmem, he, hn⟩
            rcases List.mem_cons.mp hmem with rfl | hmem2
            · have he2 : k0 = k := he
              subst he2
              exact List.mem_append.mpr (Or.inl (by simp))
            · exact List.mem_append.mpr (Or.inr (ih.mpr ⟨p, hmem2, he, hn⟩))
      | cons p ps =>
          constructor
          · intro hmem
            rcases List.mem_append.mp hmem with hin | hin
            · obtain ⟨q, _, he⟩ := List.mem_map.mp hin
              exact absurd he.symm (ne_append_slash k k0 q hk)
            · obtain ⟨pr, hmem2, he, hn⟩ := ih.mp hin
              exact ⟨pr, List.mem_cons_of_mem _ hmem2, he, hn⟩
          · rintro ⟨pr, hmem, he, hn⟩
            rcases List.mem_cons.mp hmem with rfl | hmem2
            · simp [hp] at hn
            · exact List.mem_append.mpr (Or.inr (ih.mpr ⟨pr, hmem2, he, hn⟩))

theorem contains_eq_of_mem_iff (l l' : List String) (k : String)
    (h : k ∈ l ↔ k ∈ l') : l.contains k = l'.contains k := by
  show List.elem k l = List.elem k l'
  by_cases hm : k ∈ l
  · rw [List.elem_eq_true_of_mem hm, List.elem_eq_true_of_mem (h.mp hm)]
  · have hm2 : k ∉ l' := fun hx => hm (h.mpr hx)
    cases hc : List.elem k l with
    | false =>
        cases hc2 : List.elem k l' with
        | false => rfl
        | true => exact absurd (List.mem_of_elem_eq_true hc2) hm2
    | true => exact absurd (List.mem_of_elem_eq_true hc) hm

/-- Replacing the binding of a different key does not change whether a
child with key `key` and property `P` occurs. -/
theorem exists_mem_assocSet_iff {α : Type} (cs : List (String × α))
    (k key : String) (v : α) (P : α → Prop) (hne : key ≠ k) :
    (∃ p ∈ assocSet cs k v, p.1 = key ∧ P p.2) ↔
      (∃ p ∈ cs, p.1 = key ∧ P p.2) := by
  induction cs with
  | nil =>
      constructor
      · rintro ⟨p, hp, he, hP⟩
        rw [show assocSet ([] : List (String × α)) k v = [(k, v)] from rfl] at hp
        rcases List.mem_singleton.mp hp with rfl
        exact absurd he.symm hne
      · rintro ⟨p, hp, _, _⟩
        exact absurd hp (List.not_mem_nil p)
  | cons hd tl ih =>
      obtain ⟨k0, v0⟩ := hd
      by_cases h0 : k0 = k
      · subst h0
        rw [show assocSet ((k0, v0) :: tl) k0 v = (k0, v) :: tl from by
          simp [assocSet]]
        constructor
        · rintro ⟨p, hp, he, hP⟩
          rcases List.mem_cons.mp hp with rfl | hmem
          · exact absurd he.symm hne
          · exact ⟨p, List.mem_cons_of_mem _ hmem, he, hP⟩
        · rintro ⟨p, hp, he, hP⟩
          rcases List.mem_cons.mp hp with rfl | hmem
          · exact absurd he.symm hne
          · exact ⟨p, List.mem_cons_of_mem _ hmem, he, hP⟩
      · rw [show assocSet ((k0, v0) :: tl) k v = (k0, v0) :: assocSet tl k v from by
          simp [assocSet, h0]]
        constructor
        · rintro ⟨p, hp, he, hP⟩
          rcases List.mem_cons.mp hp with rfl | hmem
          · exact ⟨(k0, v0), List.mem_cons_self _ _, he, hP⟩
          · obtain ⟨q, hq, he2, hP2⟩ := ih.mp ⟨p, hmem, he, hP⟩
            exact ⟨q, List.mem_cons_of_mem _ hq, he2, hP2⟩
        · rintro ⟨p, hp, he, hP⟩
          rcases List.mem_cons.mp hp with rfl | hmem
          · exact ⟨(k0, v0), List.mem_cons_self _ _, he, hP⟩
          · obtain ⟨q, hq, he2, hP2⟩ := ih.mpr ⟨p, hmem, he, hP⟩
            exact ⟨q, List.mem_cons_of_mem _ hq, he2, hP2⟩

/-- Deleting the binding of a different key does not change whether a
child with key `key` and property `P` occurs. -/
theorem exists_mem_assocDel_iff {α : Type} (cs : List (String × α))
    (k key : String) (P : α → Prop) (hne : key ≠ k) :
    (∃ p ∈ assocDel cs k, p.1 = key ∧ P p.2) ↔
      (∃ p ∈ cs, p.1 = key ∧ P p.2) := by
  induction cs with
  | nil => simp [assocDel]
  | cons hd tl ih =>
      obtain ⟨k0, v0⟩ := hd
      by_cases h0 : k0 = k
      · subst h0
        rw [show assocDel ((k0, v0) :: tl) k0 = tl from by simp [assocDel]]
        constructor
        · rintro ⟨p, hp, he, hP⟩
          exact ⟨p, List.mem_cons_of_mem _ hp, he, hP⟩
        · rintro ⟨p, hp, he, hP⟩
          rcases List.mem_cons.mp hp with rfl | hmem
          · exact absurd he.symm hne
          · exact ⟨p, hmem, he, hP⟩
      · rw [show assocDel ((k0, v0) :: tl) k = (k0, v0) :: assocDel tl k from by
          simp [assocDel, h0]]
        constructor
        · rintro ⟨p, hp, he, hP⟩
          rcases List.mem_cons.mp hp with rfl | hmem
          · exact ⟨(k0, v0), List.mem_cons_self _ _, he, hP⟩
          · obtain ⟨q, hq, he2, hP2⟩ := ih.mp ⟨p, hmem, he, hP⟩
            exact ⟨q, List.mem_cons_of_mem _ hq, he2, hP2⟩
        · rintro ⟨p, hp, he, hP⟩
          rcases List.mem_cons.mp hp with rfl | hmem
          · exact ⟨(k0, v0), List.mem_cons_self _ _, he, hP⟩
          · obtain ⟨q, hq, he2, hP2⟩ := ih.mpr ⟨p, hmem, he, hP⟩
            exact ⟨q, List.mem_cons_of_mem _ hq, he2, hP2⟩

theorem getDataType_eq_lockRead (st : Store) :
    getDataType st = lockRead (assocGet st "dictionaries") := by
  unfold getDataType getDictionaries getDictionary resolveStore resolveNode lockRead
  cases hd : assocGet st "dictionaries" with
  | none => simp
  | some n =>
      cases n with
      | dataset v => simp [nodePaths]
      | group cs =>
          cases hc : (childPaths cs).contains "file_data_type" with
          | false =>
              simp only [nodePaths, hc]
              simp
          | true =>
              simp only [nodePaths, hc, eq_self_iff_true, if_true]
              cases hg : assocGet cs "file_data_type" with
              | none => simp
              | some val =>
                  cases val with
                  | group cs2 => simp
                  | dataset v =>
                      cases v with
                      | jsonBlob j => simp
                      | strBlob s => simp
                      | arrData a m => simp

/-- `getDataType` depends only on the `dictionaries` child. -/
theorem getDataType_congr (st st' : Store)
    (h : assocGet st "dictionaries" = assocGet st' "dictionaries") :
    getDataType st = getDataType st' := by
  rw [getDataType_eq_lockRead, getDataType_eq_lockRead, h]

theorem lockRead_set_other (cs : List (String × Node)) (name : String)
    (nd : Node) (hne : name ≠ "file_data_type") :
    lockRead (some (.group (assocSet cs name nd))) =
      lockRead (some (.group cs)) := by
  have hslash : ('/' : Char) ∉ "file_data_type".data := by decide
  have hc := contains_eq_of_mem_iff (childPaths (assocSet cs name nd))
    (childPaths cs) "file_data_type"
    (by
      rw [mem_childPaths_iff _ hslash, mem_childPaths_iff _ hslash]
      exact exists_mem_assocSet_iff cs name "file_data_type" nd
        (fun x => nodePaths x = []) (fun e => hne e.symm))
  have hg := assocGet_assocSet_ne cs name "file_data_type" nd hne
  simp only [lockRead, nodePaths, hc, hg]

theorem lockRead_del_other (cs : List (String × Node)) (name : String)
    (hne : name ≠ "file_data_type") :
    lockRead (some (.group (assocDel cs name))) =
      lockRead (some (.group cs)) := by
  have hslash : ('/' : Char) ∉ "file_data_type".data := by decide
  have hc := contains_eq_of_mem_iff (childPaths (assocDel cs name))
    (childPaths cs) "file_data_type"
    (by
      rw [mem_childPaths_iff _ hslash, mem_childPaths_iff _ hslash]
      exact exists_mem_assocDel_iff cs name "file_data_type"
        (fun x => nodePaths x = []) (fun e => hne e.symm))
  have hg := assocGet_assocDel_ne cs name "file_data_type" hne
  simp only [lockRead, nodePaths, hc, hg]

theorem lockRead_singleton (name : String) (v : Value)
    (hne : name ≠ "file_data_type") :
    lockRead (some (.group [(name, .dataset v)])) = .ok none := by
  have hb : ("file_data_type" == name) = false := by
    rw [beq_eq_false_iff_ne]
    exact fun e => hne e.symm
  have hc : (childPaths [(name, Node.dataset v)]).contains "file_data_type" = false := by
    show List.elem "file_data_type" [name] = false
    simp [List.elem, hb]
  simp only [lockRead, nodePaths, hc]
  simp

/-- Storing a top-level dictionary under a name other than
`file_data_type` leaves the data-type lock unchanged, whether the call
succeeds or raises. -/
theorem getDataType_setDictionary_other (st : Store) (name : String)
    (j : JValue) (hne : name ≠ "file_data_type") :
    getDataType (setDictionary st [] name j).2 = getDataType st := by
  unfold setDictionary
  unfold ensureStore
  cases hd : assocGet st "dictionaries" with
  | none =>
      simp only [hd, ensureNode]
      unfold createStore
      rw [assocGet_assocSet_self]
      simp only [createNode, assocGet]
      rw [getDataType_eq_lockRead, getDataType_eq_lockRead,
        assocGet_assocSet_self, hd]
      exact lockRead_singleton name (.jsonBlob j) hne
  | some n =>
      cases n with
      | dataset v =>
          simp only [hd, ensureNode]
          unfold createStore
          rw [assocGet_assocSet_self]
          simp only [createNode]
          rw [getDataType_eq_lockRead, getDataType_eq_lockRead,
            assocGet_assocSet_self, hd]
      | group cs =>
          simp only [hd, ensureNode]
          unfold createStore
          rw [assocGet_assocSet_self]
          simp only [createNode]
          cases hg : assocGet cs name with
          | some w =>
              simp only [hg]
              rw [getDataType_eq_lockRead, getDataType_eq_lockRead,
                assocGet_assocSet_self, hd]
          | none =>
              simp only [hg]
              rw [getDataType_eq_lockRead, getDataType_eq_lockRead,
                assocGet_assocSet_self, hd]
              exact lockRead_set_other cs name (.dataset (.jsonBlob j)) hne

/-- Dropping a top-level dictionary under a name other than
`file_data_type` leaves the data-type lock unchanged. -/
theorem getDataType_dropDictionary_other (st : Store) (name : String)
    (hne : name ≠ "file_data_type") :
    getDataType (dropDictionary st [] name).2 = getDataType st := by
  unfold dropDictionary deleteStore
  cases hd : assocGet st "dictionaries" with
  | none => simp only [hd]
  | some n =>
      cases n with
      | dataset v => simp only [hd, deleteNode]
      | group cs =>
          simp only [hd, deleteNode]
          cases hg : assocGet cs name with
          | none => simp only [hg]
          | some w =>
              simp only [hg]
              rw [getDataType_eq_lockRead, getDataType_eq_lockRead,
                assocGet_assocSet_self, hd]
              exact lockRead_del_other cs name hne

/-- Sequencing preserves any `getDataType` invariant preserved by both
halves. -/
theorem getDataType_andThen (r : Except Err Unit × Store)
    (f : Store → Except Err Unit × Store) (X : Except Err (Option JValue))
    (hr : getDataType r.2 = X)
    (hf : ∀ st1, getDataType st1 = X → getDataType (f st1).2 = X) :
    getDataType (andThen r f).2 = X := by
  obtain ⟨r1, st1⟩ := r
  cases r1 with
  | error e => exact hr
  | ok u => exact hf st1 hr

/-- The drop-then-create replace pattern shared by the singleton slots
leaves the data-type lock unchanged when its name differs from
`file_data_type`. -/
theorem getDataType_replaceSlot (st : Store) (name : String) (j : JValue)
    (hne : name ≠ "file_data_type") :
    getDataType (andThen (if (getDictionaries st).contains name
        then dropDictionary st [] name else (.ok (), st))
      (fun st1 => setDictionary st1 [] name j)).2 = getDataType st := by
  apply getDataType_andThen _ _ (getDataType st)
  · cases hif : (getDictionaries st).contains name with
    | true =>
        rw [if_pos rfl]
        exact getDataType_dropDictionary_other st name hne
    | false => rw [if_neg (by simp)]
  · intro st1 h1
    rw [getDataType_setDictionary_other st1 name j hne]
    exact h1

/-- Once the lock is persisted (any readable value), `setDataType` never
changes the state: every branch is a no-op success or a raise. -/
theorem setDataType_post_of_locked (st : Store) (k : String) (v : JValue)
    (h : getDataType st = .ok (some v)) : (setDataType st k).2 = st := by
  unfold setDataType
  by_cases hk : k ≠ "points" ∧ k ≠ "grid"
  · rw [if_pos hk]
  · rw [if_neg hk]
    cases hc : (getDictionaries st).contains "file_data_type" with
    | false =>
        exfalso
        unfold getDataType at h
        rw [if_neg (by simp only [hc]; simp)] at h
        simp at h
    | true =>
        rw [if_pos rfl]
        cases hgd : getDictionary st [] "file_data_type" with
        | error e => simp only [hgd]
        | ok j =>
            simp only [hgd]
            cases hit : j.item "type" with
            | error e => simp only [hit]
            | ok cur =>
                simp only [hit]
                split <;> rfl

/-- The fold inside `dropIMT` only rewrites the `arrays` child. -/
theorem dropIMT_fold_frame (imt b : String) (hb : b ≠ "arrays") :
    ∀ (comps : List String) (acc : Except Err Unit × Store),
      assocGet (comps.foldl (dropIMTStep imt) acc).2 b = assocGet acc.2 b := by
  intro comps
  induction comps with
  | nil => intro acc; rfl
  | cons c rest ih =>
      intro acc
      rw [List.foldl_cons]
      obtain ⟨r, stc⟩ := acc
      cases r with
      | error e => rw [ih]; rfl
      | ok u =>
          rw [ih]
          unfold dropIMTStep
          cases hds : deleteStore stc "arrays" ["imts", c] imt with
          | error e => simp only [hds]
          | ok st2 =>
              simp only [hds]
              exact deleteStore_frame stc st2 "arrays" b ["imts", c] imt hb hds

/-- Whatever a `dropIMT` call does, the non-`arrays` top-level children
are unchanged. -/
theorem dropIMT_frame (st : Store) (imt b : String) (hb : b ≠ "arrays") :
    assocGet (dropIMT st imt).2 b = assocGet st b := by
  unfold dropIMT
  cases hi : imtsNode st with
  | error e => simp only [hi]
  | ok ores =>
      cases ores with
      | none => simp only [hi]
      | some n =>
          simp only [hi]
          cases hcs : getComponents st (some imt) with
          | error e => simp only [hcs]
          | ok comps =>
              simp only [hcs]
              exact dropIMT_fold_frame imt b hb comps ((.ok (), st))

/-- `setArray` leaves the data-type lock unchanged. -/
theorem getDataType_setArray (st : Store) (groups : List String) (name : String)
    (a : NArray) (meta : Metadata) :
    getDataType (setArray st groups name a meta).2 = getDataType st :=
  getDataType_congr _ _
    (setArray_frame st groups name a meta "dictionaries" (by decide))

/-- `dropIMT` leaves the data-type lock unchanged. -/
theorem getDataType_dropIMT (st : Store) (imt : String) :
    getDataType (dropIMT st imt).2 = getDataType st :=
  getDataType_congr _ _ (dropIMT_frame st imt "dictionaries" (by decide))

/-- `setRuptureDict` leaves the data-type lock unchanged (it only drops
and creates the `rupture` entry). -/
theorem getDataType_setRuptureDict (st : Store) (j : JValue) :
    getDataType (setRuptureDict st j).2 = getDataType st := by
  unfold setRuptureDict
  apply getDataType_andThen _ _ (getDataType st)
  · cases hif : (getDictionaries st).contains "rupture" with
    | true =>
        rw [if_pos rfl]
        exact getDataType_dropDictionary_other st "rupture" (by decide)
    | false => rw [if_neg (by simp)]
  · intro st1 h1
    cases hj : j.isObj with
    | true =>
        rw [if_pos rfl]
        rw [getDataType_setDictionary_other st1 "rupture" j (by decide)]
        exact h1
    | false =>
        rw [if_neg (by simp)]
        exact h1

/-- `setStationDict` leaves the data-type lock unchanged. -/
theorem getDataType_setStationDict (st : Store) (j : JValue) :
    getDataType (setStationDict st j).2 = getDataType st := by
  unfold setStationDict
  cases hj : j.isObj with
  | false => rw [if_neg (by simp)]
  | true =>
      rw [if_pos rfl]
      apply getDataType_andThen _ _ (getDataType st)
      · cases hif : (getDictionaries st).contains "stations_dict" with
        | true =>
            rw [if_pos rfl]
            exact getDataType_dropDictionary_other st "stations_dict" (by decide)
        | false => rw [if_neg (by simp)]
      · intro st1 h1
        rw [getDataType_setDictionary_other st1 "stations_dict" j (by decide)]
        exact h1

/-- Each ShakeMap schema-layer operation preserves a persisted lock
value. -/
theorem applySMOp_preserves_lock (op : SMOp) (st : Store) (v : JValue)
    (h : getDataType st = .ok (some v)) :
    getDataType (applySMOp op st).2 = .ok (some v) := by
  cases op with
  | opConfig j =>
      show getDataType (setConfig st j).2 = Except.ok (some v)
      unfold setConfig
      rw [getDataType_replaceSlot st "config" j (by decide)]
      exact h
  | opRupture j =>
      show getDataType (setRuptureDict st j).2 = Except.ok (some v)
      rw [getDataType_setRuptureDict st j]
      exact h
  | opStation j =>
      show getDataType (setStationDict st j).2 = Except.ok (some v)
      rw [getDataType_setStationDict st j]
      exact h
  | opVersionHistory j =>
      show getDataType (setVersionHistory st j).2 = Except.ok (some v)
      unfold setVersionHistory
      rw [getDataType_replaceSlot st "version_history" j (by decide)]
      exact h
  | opMetadata j =>
      show getDataType (setMetadata st j).2 = Except.ok (some v)
      unfold setMetadata
      rw [getDataType_replaceSlot st "info.json" j (by decide)]
      exact h
  | opDataType k =>
      show getDataType (setDataType st k).2 = Except.ok (some v)
      rw [setDataType_post_of_locked st k v h]
      exact h
  | opIMTGrids imt mean mm std sm comp =>
      show getDataType (setIMTGrids st imt mean mm std sm comp).2 = Except.ok (some v)
      unfold setIMTGrids
      simp only [h]
      cases hp : optEqStr (some v) "points" with
      | true => rw [if_pos rfl]; exact h
      | false =>
          rw [if_neg (by simp)]
          apply getDataType_andThen _ _ (Except.ok (some v))
          · rw [setDataType_post_of_locked st "grid" v h]; exact h
          · intro st1 h1
            apply getDataType_andThen _ _ (Except.ok (some v))
            · rw [getDataType_setArray]; exact h1
            · intro st2 h2
              rw [getDataType_setArray]; exact h2
  | opIMTArrays imt lons lats ids mean mm std sm comp =>
      show getDataType (setIMTArrays st imt lons lats ids mean mm std sm comp).2 =
        Except.ok (some v)
      unfold setIMTArrays
      simp only [h]
      cases hp : optEqStr (some v) "grid" with
      | true => rw [if_pos rfl]; exact h
      | false =>
          rw [if_neg (by simp)]
          apply getDataType_andThen _ _ (Except.ok (some v))
          · rw [setDataType_post_of_locked st "points" v h]; exact h
          · intro st1 h1
            by_cases hsh : lons.shape ≠ lats.shape ∨ lons.shape ≠ ids.shape ∨
                lons.shape ≠ mean.shape ∨ lons.shape ≠ std.shape
            · rw [if_pos hsh]; exact h1
            · rw [if_neg hsh]
              apply getDataType_andThen _ _ (Except.ok (some v))
              · rw [getDataType_setArray]; exact h1
              · intro st2 h2
                apply getDataType_andThen _ _ (Except.ok (some v))
                · rw [getDataType_setArray]; exact h2
                · intro st3 h3
                  apply getDataType_andThen _ _ (Except.ok (some v))
                  · rw [getDataType_setArray]; exact h3
                  · intro st4 h4
                    apply getDataType_andThen _ _ (Except.ok (some v))
                    · rw [getDataType_setArray]; exact h4
                    · intro st5 h5
                      rw [getDataType_setArray]; exact h5
  | opDropIMT imt =>
      show getDataType (dropIMT st imt).2 = Except.ok (some v)
      rw [getDataType_dropIMT st imt]
      exact h

/-! ## Lemmas for the multi-target IMT delete -/

theorem assocGet_cons_self {α : Type} (k : String) (v : α)
    (tl : List (String × α)) : assocGet ((k, v) :: tl) k = some v := by
  simp [assocGet]

theorem mem_of_assocGet {α : Type} (cs : List (String × α)) (k : String)
    (v : α) (h : assocGet cs k = some v) : (k, v) ∈ cs := by
  induction cs with
  | nil => simp [assocGet] at h
  | cons hd tl ih =>
      obtain ⟨k0, v0⟩ := hd
      by_cases h0 : k0 = k
      · subst h0
        rw [assocGet_cons_self] at h
        injection h with h2
        subst h2
        exact List.mem_cons_self _ _
      · simp only [assocGet, if_neg h0] at h
        exact List.mem_cons_of_mem _ (ih h)

theorem assocGet_of_mem_nodup {α : Type} (cs : List (String × α))
    (p : String × α) (hn : (cs.map Prod.fst).Nodup) (hp : p ∈ cs) :
    assocGet cs p.1 = some p.2 := by
  induction cs with
  | nil => exact absurd hp (List.not_mem_nil p)
  | cons hd tl ih =>
      simp only [List.map_cons, List.nodup_cons] at hn
      rcases List.mem_cons.mp hp with rfl | hmem
      · obtain ⟨k0, v0⟩ := p
        simp [assocGet]
      · obtain ⟨k0, v0⟩ := hd
        have hne : k0 ≠ p.1 := by
          intro e
          apply hn.1
          rw [e]
          exact List.mem_map.mpr ⟨p, hmem, rfl⟩
        simp only [assocGet, if_neg hne]
        exact ih hn.2 hmem

theorem keys_assocSet_of_get {α : Type} (cs : List (String × α))
    (k : String) (v w : α) (h : assocGet cs k = some w) :
    (assocSet cs k v).map Prod.fst = cs.map Prod.fst := by
  induction cs with
  | nil => simp [assocGet] at h
  | cons hd tl ih =>
      obtain ⟨k0, v0⟩ := hd
      by_cases h0 : k0 = k
      · subst h0; simp [assocSet]
      · simp only [assocGet, if_neg h0] at h
        simp [assocSet, if_neg h0, ih h]

theorem assocDel_sublist {α : Type} (cs : List (String × α)) (k : String) :
    List.Sublist (assocDel cs k) cs := by
  induction cs with
  | nil => simp [assocDel]
  | cons hd tl ih =>
      obtain ⟨k0, v0⟩ := hd
      by_cases h0 : k0 = k
      · simp only [assocDel, if_pos h0]
        exact List.sublist_cons_self _ _
      · simp only [assocDel, if_neg h0]
        exact ih.cons₂ _

theorem assocGet_assocDel_self_of_nodup {α : Type} (cs : List (String × α))
    (k : String) (hn : (cs.map Prod.fst).Nodup) :
    assocGet (assocDel cs k) k = none := by
  induction cs with
  | nil => rfl
  | cons hd tl ih =>
      obtain ⟨k0, v0⟩ := hd
      simp only [List.map_cons, List.nodup_cons] at hn
      by_cases h0 : k0 = k
      · subst h0
        simp only [assocDel, if_pos rfl]
        exact assocGet_eq_none_of_not_mem tl k0 hn.1
      · simp only [assocDel, if_neg h0, assocGet, if_neg h0]
        exact ih hn.2

theorem mem_assocSet_cases {α : Type} (cs : List (String × α)) (k : String)
    (v : α) (p : String × α) (hn : (cs.map Prod.fst).Nodup)
    (hp : p ∈ assocSet cs k v) : p = (k, v) ∨ (p ∈ cs ∧ p.1 ≠ k) := by
  induction cs with
  | nil =>
      rw [show assocSet ([] : List (String × α)) k v = [(k, v)] from rfl] at hp
      exact Or.inl (List.mem_singleton.mp hp)
  | cons hd tl ih =>
      obtain ⟨k0, v0⟩ := hd
      simp only [List.map_cons, List.nodup_cons] at hn
      by_cases h0 : k0 = k
      · subst h0
        rw [show assocSet ((k0, v0) :: tl) k0 v = (k0, v) :: tl from by
          simp [assocSet]] at hp
        rcases List.mem_cons.mp hp with rfl | hmem
        · exact Or.inl rfl
        · refine Or.inr ⟨List.mem_cons_of_mem _ hmem, ?_⟩
          intro e
          apply hn.1
          rw [← e]
          exact List.mem_map_of_mem Prod.fst hmem
      · rw [show assocSet ((k0, v0) :: tl) k v = (k0, v0) :: assocSet tl k v from by
          simp [assocSet, h0]] at hp
        rcases List.mem_cons.mp hp with rfl | hmem
        · exact Or.inr ⟨List.mem_cons_self _ _, h0⟩
        · rcases ih hn.2 hmem with he | ⟨hmem2, hne⟩
          · exact Or.inl he
          · exact Or.inr ⟨List.mem_cons_of_mem _ hmem2, hne⟩

/-- The loop of `getComponents(imt)`, over any association list whose
entries resolve in `ics`, collects exactly the components whose group
contains the IMT. -/
theorem componentStep_fold (ics : List (String × Node)) (i : String) :
    ∀ (items : List (String × Node)) (acc : List String),
      (∀ p ∈ items, assocGet ics p.1 = some p.2) →
      (∀ p ∈ items, ∃ ccs, p.2 = Node.group ccs) →
      (items.map Prod.fst).foldl (componentStep ics i) (.ok acc) =
        .ok (acc ++ (items.filter (fun p => hasNodeKey p.2 i)).map Prod.fst) := by
  intro items
  induction items with
  | nil => intro acc _ _; simp
  | cons hd tl ih =>
      intro acc hlook hgrp
      obtain ⟨k0, n0⟩ := hd
      obtain ⟨ccs, hccs⟩ := hgrp (k0, n0) (List.mem_cons_self _ _)
      have hc2 : n0 = Node.group ccs := hccs
      subst hc2
      simp only [List.map_cons, List.foldl_cons]
      have hl : assocGet ics k0 = some (Node.group ccs) :=
        hlook (k0, Node.group ccs) (List.mem_cons_self _ _)
      have hstep : componentStep ics i (.ok acc) k0 =
          .ok (if (assocGet ccs i).isSome then acc ++ [k0] else acc) := by
        unfold componentStep
        rw [hl]
        rfl
      rw [hstep]
      rw [ih _ (fun p hp => hlook p (List.mem_cons_of_mem _ hp))
        (fun p hp => hgrp p (List.mem_cons_of_mem _ hp))]
      rw [List.filter_cons]
      cases hb : (assocGet ccs i).isSome with
      | true =>
          rw [if_pos rfl, if_pos (by show hasNodeKey (Node.group ccs) i = true; simpa [hasNodeKey] using hb)]
          simp
      | false =>
          rw [if_neg (by simp), if_neg (by show ¬ hasNodeKey (Node.group ccs) i = true; simp [hasNodeKey, hb])]

/-- `getComponents(imt)` on a well-formed store returns the components
whose group contains the IMT, in order. -/
theorem getComponents_eq (st : Store) (i : String)
    (acs ics : List (String × Node))
    (h1 : assocGet st "arrays" = some (.group acs))
    (h2 : assocGet acs "imts" = some (.group ics))
    (hg : ∀ p ∈ ics, ∃ ccs, p.2 = Node.group ccs)
    (hn : (ics.map Prod.fst).Nodup) :
    getComponents st (some i) =
      .ok ((ics.filter (fun p => hasNodeKey p.2 i)).map Prod.fst) := by
  unfold getComponents imtsNode
  simp only [h1, h2]
  have := componentStep_fold ics i ics []
    (fun p hp => assocGet_of_mem_nodup ics p hn hp) hg
  simpa using this

/-- `dropIMT`'s loop deletes the IMT from every listed component: it
succeeds, keeps the two-level group structure well-formed, and leaves no
component containing the IMT. -/
theorem dropIMT_loop (imt : String) :
    ∀ (rem : List String) (stc : Store) (acs ics : List (String × Node)),
      assocGet stc "arrays" = some (.group acs) →
      assocGet acs "imts" = some (.group ics) →
      (ics.map Prod.fst).Nodup →
      (∀ p ∈ ics, ∃ ccs, p.2 = Node.group ccs ∧ (ccs.map Prod.fst).Nodup) →
      rem.Nodup →
      (∀ p ∈ ics, hasNodeKey p.2 imt = true → p.1 ∈ rem) →
      (∀ c ∈ rem, ∃ n, assocGet ics c = some n ∧ hasNodeKey n imt = true) →
      (rem.foldl (dropIMTStep imt) ((.ok (), stc))).1 = .ok () ∧
      ∃ acs2 ics2,
        assocGet (rem.foldl (dropIMTStep imt) ((.ok (), stc))).2 "arrays" =
          some (.group acs2) ∧
        assocGet acs2 "imts" = some (.group ics2) ∧
        (ics2.map Prod.fst).Nodup ∧
        (∀ p ∈ ics2, ∃ ccs, p.2 = Node.group ccs ∧ (ccs.map Prod.fst).Nodup) ∧
        (∀ p ∈ ics2, hasNodeKey p.2 imt = false) := by
  intro rem
  induction rem with
  | nil =>
      intro stc acs ics h1 h2 hn hg _ hin _
      refine ⟨rfl, acs, ics, h1, h2, hn, hg, ?_⟩
      intro p hp
      cases hb : hasNodeKey p.2 imt with
      | false => rfl
      | true => exact absurd (hin p hp hb) (List.not_mem_nil _)
  | cons c rest ih =>
      intro stc acs ics h1 h2 hn hg hrn hin hrem
      obtain ⟨n, hcn, hhas⟩ := hrem c (List.mem_cons_self _ _)
      have hmemn : (c, n) ∈ ics := mem_of_assocGet ics c n hcn
      obtain ⟨ccs, hccs, hccsn⟩ := hg (c, n) hmemn
      have hng : n = Node.group ccs := hccs
      subst hng
      have hcg : assocGet ics c = some (Node.group ccs) := hcn
      obtain ⟨w, hw⟩ : ∃ w, assocGet ccs imt = some w := by
        have hs : (assocGet ccs imt).isSome = true := by
          simpa [hasNodeKey] using hhas
        exact Option.isSome_iff_exists.mp hs
      have hdel : deleteStore stc "arrays" ["imts", c] imt =
          .ok (assocSet stc "arrays" (.group (assocSet acs "imts"
            (.group (assocSet ics c (.group (assocDel ccs imt))))))) := by
        unfold deleteStore
        simp only [deleteNode, h1, h2, hcg, hw]
      rw [List.foldl_cons]
      have hstep : dropIMTStep imt ((.ok (), stc)) c =
          ((.ok (), assocSet stc "arrays" (.group (assocSet acs "imts"
            (.group (assocSet ics c (.group (assocDel ccs imt)))))))) := by
        simp only [dropIMTStep, hdel]
      rw [hstep]
      have hdelnodup : ((assocDel ccs imt).map Prod.fst).Nodup :=
        hccsn.sublist (List.Sublist.map Prod.fst (assocDel_sublist ccs imt))
      have hnewkeys : ((assocSet ics c (Node.group (assocDel ccs imt))).map
          Prod.fst) = ics.map Prod.fst :=
        keys_assocSet_of_get ics c _ _ hcg
      have hcnotrest : c ∉ rest := (List.nodup_cons.mp hrn).1
      refine ih _ (assocSet acs "imts"
          (.group (assocSet ics c (.group (assocDel ccs imt)))))
        (assocSet ics c (.group (assocDel ccs imt)))
        (assocGet_assocSet_self _ _ _) (assocGet_assocSet_self _ _ _)
        (hnewkeys ▸ hn) ?_ ((List.nodup_cons.mp hrn).2) ?_ ?_
      · intro p hp
        rcases mem_assocSet_cases ics c _ p hn hp with rfl | ⟨hmem, _⟩
        · exact ⟨assocDel ccs imt, rfl, hdelnodup⟩
        · exact hg p hmem
      · intro p hp hb
        rcases mem_assocSet_cases ics c _ p hn hp with rfl | ⟨hmem, hne⟩
        · exfalso
          have hkill := assocGet_assocDel_self_of_nodup ccs imt hccsn
          rw [show hasNodeKey (c, Node.group (assocDel ccs imt)).2 imt =
            (assocGet (assocDel ccs imt) imt).isSome from rfl, hkill] at hb
          simp at hb
        · rcases List.mem_cons.mp (hin p hmem hb) with he | hmem2
          · exact absurd he hne
          · exact hmem2
      · intro c2 hc2
        obtain ⟨n2, hn2, hb2⟩ := hrem c2 (List.mem_cons_of_mem _ hc2)
        have hne2 : c ≠ c2 := fun e => hcnotrest (e ▸ hc2)
        exact ⟨n2, (assocGet_assocSet_ne ics c c2 _ hne2).trans hn2, hb2⟩

/-! ## The timestamp text round trip and DataFrame lemmas -/

theorem digitVal_digitChar (n : Nat) (h : n < 10) :
    digitVal (digitChar n) = some n := by
  interval_cases n <;> rfl

theorem isPySpace_digitChar (n : Nat) (h : n < 10) :
    isPySpace (digitChar n) = false := by
  interval_cases n <;> rfl

theorem daysInMonth_le (y m : Nat) : daysInMonth y m ≤ 31 := by
  unfold daysInMonth
  by_cases h2 : m = 2
  · rw [if_pos h2]
    cases isLeap y <;> simp
  · rw [if_neg h2]
    by_cases h4 : m = 4 ∨ m = 6 ∨ m = 9 ∨ m = 11
    · rw [if_pos h4]
      norm_num
    · rw [if_neg h4]

/-- `%Y` on a four-digit padded year followed by anything. -/
theorem parse4Digits_pad4 (y : Nat) (hy : y ≤ 9999) (rest : List Char) :
    parse4Digits (pad4 y ++ rest) = some (y, rest) := by
  have hd10 : ∀ n : Nat, digitVal (digitChar (n % 10)) = some (n % 10) :=
    fun n => digitVal_digitChar _ (Nat.mod_lt _ (by norm_num))
  simp only [pad4, List.cons_append, List.nil_append, parse4Digits, hd10]
  have ey : 1000 * (y / 1000 % 10) + 100 * (y / 100 % 10) +
      10 * (y / 10 % 10) + y % 10 = y := by omega
  rw [ey]

theorem parseLit_cons (c : Char) (rest : List Char) :
    parseLit c (c :: rest) = some rest := by
  show (if c = c then some rest else none) = some rest
  rw [if_pos rfl]

/-- A two-digit in-range field on its zero-padded form followed by
anything. -/
theorem parseField2_pad2 (lo2 hi2 lo1 hi1 v : Nat)
    (hlo : lo2 ≤ v) (hhi : v ≤ hi2) (h99 : v ≤ 99) (rest : List Char) :
    parseField2 lo2 hi2 lo1 hi1 (pad2 v ++ rest) = some (v, rest) := by
  have hd10 : ∀ n : Nat, digitVal (digitChar (n % 10)) = some (n % 10) :=
    fun n => digitVal_digitChar _ (Nat.mod_lt _ (by norm_num))
  simp only [pad2, List.cons_append, List.nil_append, parseField2, hd10]
  have ev : 10 * (v / 10 % 10) + v % 10 = v := by omega
  rw [ev, if_pos ⟨hlo, hhi⟩]

/-- The single format space followed by a padded two-digit field. -/
theorem parseSpaces1_pad2 (v : Nat) (rest : List Char) :
    parseSpaces1 (' ' :: (pad2 v ++ rest)) = some (pad2 v ++ rest) := by
  have h1 : isPySpace (digitChar (v / 10 % 10)) = false :=
    isPySpace_digitChar _ (Nat.mod_lt _ (by norm_num))
  simp only [pad2, List.cons_append, List.nil_append, parseSpaces1, dropSpaces]
  rw [if_pos (by decide), if_neg (by rw [h1]; simp)]
  rfl

/-- `%f` on the six-digit padded microseconds ending the string. -/
theorem parseMicroFrac_pad6 (u : Nat) (hu : u ≤ 999999) :
    parseMicroFrac (pad6 u) = some u := by
  have hd10 : ∀ n : Nat, digitVal (digitChar (n % 10)) = some (n % 10) :=
    fun n => digitVal_digitChar _ (Nat.mod_lt _ (by norm_num))
  have hlen : (pad6 u).length = 6 := rfl
  unfold parseMicroFrac
  rw [hlen, if_pos (by norm_num)]
  simp only [pad6, digitsVal, hd10]
  refine congrArg some ?_
  simp only [Nat.sub_self, pow_zero, Nat.mul_one]
  omega

/-- Formatting a representable timestamp and parsing it back recovers the
timestamp. -/
theorem parse_fmt (t : Timestamp) (h : TSValid t) :
    parseTimestamp (fmtTimestamp t) = some t := by
  obtain ⟨y, mo, d, hh, mi, s, u⟩ := t
  simp only [TSValid] at h
  obtain ⟨hy1, hy2, hmo1, hmo2, hd1, hd2, hhh, hmi, hs, hu⟩ := h
  have hd31 : d ≤ 31 := le_trans hd2 (daysInMonth_le y mo)
  simp only [parseTimestamp, fmtTimestamp, parseChars,
    parse4Digits_pad4 y hy2, parseLit_cons,
    parseField2_pad2 1 12 1 9 mo hmo1 hmo2 (by omega),
    parseField2_pad2 1 31 1 9 d hd1 hd31 (by omega),
    parseSpaces1_pad2,
    parseField2_pad2 0 23 0 9 hh (by omega) hhh (by omega),
    parseField2_pad2 0 59 0 9 mi (by omega) hmi (by omega),
    parseField2_pad2 0 61 0 9 s (by omega) (by omega) (by omega),
    parseMicroFrac_pad6 u hu]
  rw [if_pos ⟨by omega, hd2, hs⟩]

theorem parseAll_fmt (ts : List Timestamp) (h : ∀ t ∈ ts, TSValid t) :
    parseAll (ts.map fmtTimestamp) = some ts := by
  induction ts with
  | nil => rfl
  | cons t tl ih =>
      rw [List.map_cons]
      unfold parseAll
      rw [parse_fmt t (h t (List.mem_cons_self _ _)),
        ih (fun x hx => h x (List.mem_cons_of_mem _ hx))]

theorem parseAll_none (ss : List String) (s0 : String) (hmem : s0 ∈ ss)
    (hnone : parseTimestamp s0 = none) : parseAll ss = none := by
  induction ss with
  | nil => exact absurd hmem (List.not_mem_nil s0)
  | cons a tl ih =>
      unfold parseAll
      rcases List.mem_cons.mp hmem with rfl | hm
      · rw [hnone]
      · rw [ih hm]
        cases parseTimestamp a <;> rfl

theorem assocGet_map_snd {α β : Type} (l : List (String × α)) (f : α → β)
    (k : String) :
    assocGet (l.map (fun kc => (kc.1, f kc.2))) k = (assocGet l k).map f := by
  induction l with
  | nil => rfl
  | cons hd tl ih =>
      obtain ⟨k0, v0⟩ := hd
      by_cases h0 : k0 = k
      · simp [assocGet, h0]
      · simp [assocGet, h0, ih]

theorem optEqStr_true_iff (dt : Option JValue) (k : String) :
    optEqStr dt k = true ↔ dt = some (.str k) := by
  cases dt with
  | none => simp [optEqStr]
  | some j => cases j <;> simp [optEqStr, JValue.eqStr]

/-! ## Helper lemmas for the claim-level theorems -/

theorem andThen_ok (st1 : Store) (f : Store → Except Err Unit × Store) :
    andThen ((.ok (), st1)) f = f st1 := rfl

theorem andThen_error (e : Err) (st1 : Store)
    (f : Store → Except Err Unit × Store) :
    andThen ((.error e, st1)) f = (.error e, st1) := rfl

/-- Whatever `setDataType` does, it only touches the `dictionaries`
child. -/
theorem setDataType_frame (st : Store) (k b : String)
    (hb : b ≠ "dictionaries") :
    assocGet (setDataType st k).2 b = assocGet st b := by
  unfold setDataType
  by_cases hk : k ≠ "points" ∧ k ≠ "grid"
  · rw [if_pos hk]
  · rw [if_neg hk]
    cases hc : (getDictionaries st).contains "file_data_type" with
    | true =>
        rw [if_pos rfl]
        cases hgd : getDictionary st [] "file_data_type" with
        | error e => simp only [hgd]
        | ok j =>
            simp only [hgd]
            cases hit : j.item "type" with
            | error e => simp only [hit]
            | ok cur =>
                simp only [hit]
                split <;> rfl
    | false =>
        rw [if_neg (by simp [hc])]
        exact setDictionary_frame st [] "file_data_type" _ b hb

theorem assocGet_isSome_of_mem_keys {α : Type} (cs : List (String × α))
    (k : String) (h : k ∈ cs.map Prod.fst) : (assocGet cs k).isSome = true := by
  induction cs with
  | nil => simp at h
  | cons hd tl ih =>
      obtain ⟨k0, v0⟩ := hd
      by_cases h0 : k0 = k
      · subst h0
        simp [assocGet]
      · simp only [assocGet, if_neg h0]
        apply ih
        simp only [List.map_cons, List.mem_cons] at h
        rcases h with he | hm
        · exact absurd he.symm h0
        · exact hm

/-- Reading the lock after a fresh creation of the `file_data_type`
entry. -/
theorem lockRead_fdt_create (cs : List (String × Node)) (j : JValue)
    (habs : assocGet cs "file_data_type" = none) :
    lockRead (some (.group (assocSet cs "file_data_type"
      (.dataset (.jsonBlob j))))) =
      match j.item "type" with
      | .error e => .error e
      | .ok cur => .ok (some cur) := by
  have hmem : "file_data_type" ∈ childPaths (assocSet cs "file_data_type"
      (.dataset (.jsonBlob j))) := by
    rw [mem_childPaths_iff _ (by decide)]
    refine ⟨("file_data_type", .dataset (.jsonBlob j)), ?_, rfl, rfl⟩
    rw [assocSet_eq_append cs _ _ habs]
    exact List.mem_append.mpr (Or.inr (List.mem_singleton.mpr rfl))
  have hcon : (childPaths (assocSet cs "file_data_type"
      (.dataset (.jsonBlob j)))).contains "file_data_type" = true := by
    show List.elem "file_data_type" _ = true
    exact List.elem_eq_true_of_mem hmem
  have hget : assocGet (assocSet cs "file_data_type"
      (.dataset (.jsonBlob j))) "file_data_type" =
      some (.dataset (.jsonBlob j)) := assocGet_assocSet_self _ _ _
  simp only [lockRead, nodePaths, hcon, hget]
  rw [if_pos trivial]

/-- Inversion of a successful `getDataType`: the entry exists and reads
back as a JSON object with the returned `type` value. -/
theorem getDataType_ok_inv (st : Store) (v : JValue)
    (h : getDataType st = .ok (some v)) :
    (getDictionaries st).contains "file_data_type" = true ∧
    ∃ j, getDictionary st [] "file_data_type" = .ok j ∧
      j.item "type" = .ok v := by
  unfold getDataType at h
  cases hc : (getDictionaries st).contains "file_data_type" with
  | false =>
      rw [hc] at h
      simp at h
  | true =>
      rw [if_pos hc] at h
      refine ⟨rfl, ?_⟩
      cases hgd : getDictionary st [] "file_data_type" with
      | error e => simp only [hgd] at h; simp at h
      | ok j =>
          simp only [hgd] at h
          cases hit : j.item "type" with
          | error e => simp only [hit] at h; simp at h
          | ok cur =>
              simp only [hit] at h
              simp only [Except.ok.injEq, Option.some.injEq] at h
              exact ⟨j, rfl, by rw [← h]; exact hit⟩

/-- `setDataType` on a container whose lock slot was never written
persists the requested kind. -/
theorem setDataType_fresh (st : Store) (k : String)
    (hk : k = "points" ∨ k = "grid")
    (h1 : (getDictionaries st).contains "file_data_type" = false)
    (h2 : lockSlotFree st) :
    (setDataType st k).1 = .ok () ∧
    getDataType (setDataType st k).2 = .ok (some (.str k)) := by
  have hkind : ¬(k ≠ "points" ∧ k ≠ "grid") := by
    rcases hk with rfl | rfl <;> simp
  unfold setDataType
  rw [if_neg hkind, if_neg (by rw [h1]; simp)]
  unfold lockSlotFree at h2
  cases hd : assocGet st "dictionaries" with
  | none =>
      have hpost : setDictionary st [] "file_data_type"
          (.obj [("type", .str k)]) =
          (.ok (), assocSet (assocSet st "dictionaries" (.group []))
            "dictionaries" (.group [("file_data_type",
              .dataset (.jsonBlob (.obj [("type", .str k)])))])) := by
        unfold setDictionary ensureStore
        simp only [hd, ensureNode]
        unfold createStore
        rw [assocGet_assocSet_self]
        simp only [createNode, assocGet, assocSet]
      rw [hpost]
      refine ⟨rfl, ?_⟩
      rw [getDataType_eq_lockRead, assocGet_assocSet_self]
      rfl
  | some n =>
      simp only [hd] at h2
      cases n with
      | dataset v => exact h2.elim
      | group cs =>
          have hpost : setDictionary st [] "file_data_type"
              (.obj [("type", .str k)]) =
              (.ok (), assocSet (assocSet st "dictionaries" (.group cs))
                "dictionaries" (.group (assocSet cs "file_data_type"
                  (.dataset (.jsonBlob (.obj [("type", .str k)])))))) := by
            unfold setDictionary ensureStore
            simp only [hd, ensureNode]
            unfold createStore
            rw [assocGet_assocSet_self]
            simp only [createNode, h2]
          rw [hpost]
          refine ⟨rfl, ?_⟩
          rw [getDataType_eq_lockRead, assocGet_assocSet_self,
            lockRead_fdt_create cs _ h2]
          rfl

/-- `setDataType` with the already-persisted kind is a no-op success. -/
theorem setDataType_noop (st : Store) (k : String)
    (hk : k = "points" ∨ k = "grid")
    (h : getDataType st = .ok (some (.str k))) :
    setDataType st k = ((.ok () : Except Err Unit), st) := by
  have hkind : ¬(k ≠ "points" ∧ k ≠ "grid") := by
    rcases hk with rfl | rfl <;> simp
  obtain ⟨hc, j, hgd, hit⟩ := getDataType_ok_inv st (.str k) h
  unfold setDataType
  rw [if_neg hkind, if_pos hc]
  simp only [hgd, hit]
  rw [if_pos (by simp [JValue.eqStr])]

/-- `setDataType` with the other kind than the persisted one fails with
the type conflict and leaves the state unchanged. -/
theorem setDataType_conflict (st : Store) (k k' : String)
    (h : getDataType st = .ok (some (.str k)))
    (hk' : k' = "points" ∨ k' = "grid") (hne : k ≠ k') :
    setDataType st k' = ((.error .typeConflict : Except Err Unit), st) := by
  have hkind : ¬(k' ≠ "points" ∧ k' ≠ "grid") := by
    rcases hk' with rfl | rfl <;> simp
  obtain ⟨hc, j, hgd, hit⟩ := getDataType_ok_inv st (.str k) h
  unfold setDataType
  rw [if_neg hkind, if_pos hc]
  simp only [hgd, hit]
  rw [if_neg (by simp [JValue.eqStr, hne])]

theorem parseAll_isSome_each (ss : List String) (ts : List Timestamp)
    (h : parseAll ss = some ts) :
    ∀ s ∈ ss, (parseTimestamp s).isSome = true := by
  induction ss generalizing ts with
  | nil => intro s hs; simp at hs
  | cons a tl ih =>
      intro s hs
      unfold parseAll at h
      cases hp : parseTimestamp a with
      | none => simp only [hp] at h; exact Option.noConfusion h
      | some t =>
          cases hq : parseAll tl with
          | none => simp only [hp, hq] at h; exact Option.noConfusion h
          | some ts2 =>
              rcases List.mem_cons.mp hs with rfl | hm
              · rw [hp]; rfl
              · exact ih ts2 hq s hm

theorem parseAll_total (ss : List String)
    (h : ∀ s ∈ ss, (parseTimestamp s).isSome = true) :
    ∃ ts, parseAll ss = some ts := by
  induction ss with
  | nil => exact ⟨[], rfl⟩
  | cons a tl ih =>
      obtain ⟨t, ht⟩ := Option.isSome_iff_exists.mp (h a (List.mem_cons_self _ _))
      obtain ⟨ts, hts⟩ := ih (fun s hs => h s (List.mem_cons_of_mem _ hs))
      refine ⟨t :: ts, ?_⟩
      unfold parseAll
      rw [ht, hts]

/-- A safe column survives the store/read cycle unchanged. -/
theorem roundtrip_col (c : Column) (h : ColSafe c) :
    readColumn (storeColumn c) = c := by
  cases c with
  | numCol xs => rfl
  | strCol ss =>
      have h2 : ss ≠ [] ∧ ∃ s ∈ ss, parseTimestamp s = none := h
      obtain ⟨hne, s0, hs0, hnone⟩ := h2
      show readColumn (Column.strCol ss) = Column.strCol ss
      by_cases he : ss.isEmpty = true
      · exact absurd (by simpa using he) hne
      · show (if ss.isEmpty = true then Column.strCol ss
          else match parseAll ss with
            | some ts => Column.timeCol ts
            | none => Column.strCol ss) = Column.strCol ss
        rw [if_neg he, parseAll_none ss s0 hs0 hnone]
  | timeCol ts =>
      have h2 : ts ≠ [] ∧ ∀ t ∈ ts, TSValid t := h
      obtain ⟨hne, hv⟩ := h2
      cases ts with
      | nil => exact absurd rfl hne
      | cons t0 tl =>
          show (if ((t0 :: tl).map fmtTimestamp).isEmpty = true then
              Column.strCol ((t0 :: tl).map fmtTimestamp)
            else match parseAll ((t0 :: tl).map fmtTimestamp) with
              | some ts => Column.timeCol ts
              | none => Column.strCol ((t0 :: tl).map fmtTimestamp)) =
            Column.timeCol (t0 :: tl)
          rw [if_neg (by simp), parseAll_fmt (t0 :: tl) hv]

/-- A safe column has rows. -/
theorem colLen_ne_zero (c : Column) (h : ColSafe c) :
    (colLen c == 0) = false := by
  cases c with
  | strCol ss =>
      have h2 : ss ≠ [] ∧ ∃ s ∈ ss, parseTimestamp s = none := h
      show (ss.length == 0) = false
      rw [beq_eq_false_iff_ne]
      intro e
      exact h2.1 (List.length_eq_zero.mp e)
  | timeCol ts =>
      have h2 : ts ≠ [] ∧ ∀ t ∈ ts, TSValid t := h
      show (ts.length == 0) = false
      rw [beq_eq_false_iff_ne]
      intro e
      exact h2.1 (List.length_eq_zero.mp e)
  | numCol xs =>
      have h2 : xs ≠ [] := h
      show (xs.length == 0) = false
      rw [beq_eq_false_iff_ne]
      intro e
      exact h2 (List.length_eq_zero.mp e)

/-- On a frame of safe (hence nonempty) columns the write succeeds and
stores the per-column transform. -/
theorem setDataFrame_ok_of_safe (df : DataFrame)
    (hdf : ∀ p ∈ df, ColSafe p.2) :
    setDataFrame df = .ok (df.map (fun kc => (kc.1, storeColumn kc.2))) := by
  have hany : df.any (fun kc => colLen kc.2 == 0) = false := by
    cases hb : df.any (fun kc => colLen kc.2 == 0) with
    | false => rfl
    | true =>
        obtain ⟨p, hp, hpe⟩ := List.any_eq_true.mp hb
        simp only [colLen_ne_zero p.2 (hdf p hp)] at hpe
        exact hpe.symm
  unfold setDataFrame
  rw [if_neg (by rw [hany]; simp)]

/-- Reading back the stored form of a frame of safe columns recovers the
frame. -/
theorem getDataFrame_map_store (df : DataFrame)
    (hdf : ∀ p ∈ df, ColSafe p.2) :
    getDataFrame (df.map (fun kc => (kc.1, storeColumn kc.2))) = df := by
  induction df with
  | nil => rfl
  | cons hd tl ih =>
      obtain ⟨k0, c0⟩ := hd
      simp only [getDataFrame, List.map_cons]
      rw [roundtrip_col c0 (hdf (k0, c0) (List.mem_cons_self _ _))]
      have htl := ih (fun p hp => hdf p (List.mem_cons_of_mem _ hp))
      simp only [getDataFrame] at htl
      rw [htl]

/-! ## Claim theorems -/

/-- C1 (counterexample): on a fresh container, a points-mode write whose
`lats` array has a different shape from `lons` fails with the shape
mismatch, yet the container state is NOT what it was before the call: the
data-type lock, unset beforehand, is left persisted as `points`, because
`setIMTArrays` runs `setDataType('points')` before the shape check. -/
theorem claim_C1_counterexample :
    (setIMTArrays [] "pga" arr3 arr2 ids3 zeros3 [] zeros3 [] "Larger").1 =
      .error .shapeMismatch ∧
    getDataType ([] : Store) = .ok none ∧
    getDataType
      (setIMTArrays [] "pga" arr3 arr2 ids3 zeros3 [] zeros3 [] "Larger").2 =
      .ok (some (.str "points")) := ⟨rfl, rfl, rfl⟩

/-- C1 (amended): when the shapes of `lons`, `lats`, `ids`, `mean`, `std`
disagree and the container is not grid-locked, `setIMTArrays` fails with
the shape mismatch and creates none of the five arrays — the post-state is
exactly the pre-state after `setDataType('points')`, whose only effect is
on the `dictionaries` child (the persisted data-type lock); the `arrays`
subtree is untouched. -/
theorem claim_C1_amended (st : Store) (imt : String)
    (lons lats ids mean : NArray) (meanMeta : Metadata) (std : NArray)
    (stdMeta : Metadata) (component : String) (dt : Option JValue)
    (hdt : getDataType st = .ok dt)
    (hng : optEqStr dt "grid" = false)
    (hlock : (setDataType st "points").1 = .ok ())
    (hsh : lons.shape ≠ lats.shape ∨ lons.shape ≠ ids.shape ∨
      lons.shape ≠ mean.shape ∨ lons.shape ≠ std.shape) :
    setIMTArrays st imt lons lats ids mean meanMeta std stdMeta component =
      ((.error .shapeMismatch : Except Err Unit), (setDataType st "points").2) ∧
    assocGet (setDataType st "points").2 "arrays" = assocGet st "arrays" := by
  constructor
  · unfold setIMTArrays
    simp only [hdt]
    rw [if_neg (by rw [hng]; simp)]
    cases hsd : setDataType st "points" with
    | mk r1 st1 =>
        have hr1 : r1 = .ok () := by
          have h2 := hlock
          rw [hsd] at h2
          exact h2
        subst hr1
        rw [andThen_ok]
        simp only []
        rw [if_pos hsh]
  · exact setDataType_frame st "points" "arrays" (by decide)

/-- C1 (amended, witness): the concrete mismatched points write on the
fresh container. -/
theorem claim_C1_amended_witness :
    setIMTArrays [] "pga" arr3 arr2 ids3 zeros3 [] zeros3 [] "Larger" =
      ((.error .shapeMismatch : Except Err Unit), (setDataType [] "points").2) ∧
    assocGet (setDataType [] "points").2 "arrays" =
      assocGet ([] : Store) "arrays" :=
  claim_C1_amended [] "pga" arr3 arr2 ids3 zeros3 [] zeros3 [] "Larger"
    none rfl rfl rfl (by decide)

/-- C2: the persisted data-type lock is a terminal state machine:
`getDataType` is `None` on a container never written; `setDataType` when
the slot was never written persists the kind; when the persisted value
already equals the kind it is a no-op success; when it is the other kind it
fails with the type conflict and changes nothing; and once a value is
persisted, no operation of the schema layer ever changes it. -/
theorem claim_C2 :
    getDataType ([] : Store) = .ok none ∧
    (∀ st k, (k = "points" ∨ k = "grid") →
      (getDictionaries st).contains "file_data_type" = false →
      lockSlotFree st →
      (setDataType st k).1 = .ok () ∧
      getDataType (setDataType st k).2 = .ok (some (.str k))) ∧
    (∀ st k, (k = "points" ∨ k = "grid") →
      getDataType st = .ok (some (.str k)) →
      setDataType st k = ((.ok () : Except Err Unit), st)) ∧
    (∀ st k k', getDataType st = .ok (some (.str k)) →
      (k' = "points" ∨ k' = "grid") → k ≠ k' →
      setDataType st k' = ((.error .typeConflict : Except Err Unit), st)) ∧
    (∀ op st v, getDataType st = .ok (some v) →
      getDataType (applySMOp op st).2 = .ok (some v)) := by
  refine ⟨rfl, ?_, ?_, ?_, ?_⟩
  · exact fun st k hk h1 h2 => setDataType_fresh st k hk h1 h2
  · exact fun st k hk h => setDataType_noop st k hk h
  · exact fun st k k2 h hk2 hne => setDataType_conflict st k k2 h hk2 hne
  · exact fun op st v h => applySMOp_preserves_lock op st v h

/-- C2 (witness): the lock transitions on concrete stores. -/
theorem claim_C2_witness :
    ((setDataType [] "grid").1 = .ok () ∧
      getDataType (setDataType [] "grid").2 = .ok (some (.str "grid"))) ∧
    setDataType gridLockedStore "grid" =
      ((.ok () : Except Err Unit), gridLockedStore) ∧
    setDataType gridLockedStore "points" =
      ((.error .typeConflict : Except Err Unit), gridLockedStore) ∧
    getDataType (applySMOp (.opDataType "points") gridLockedStore).2 =
      .ok (some (.str "grid")) := by
  have h := claim_C2
  exact ⟨h.2.1 [] "grid" (Or.inr rfl) rfl (by trivial),
    h.2.2.1 gridLockedStore "grid" (Or.inr rfl) rfl,
    h.2.2.2.1 gridLockedStore "grid" "points" rfl (Or.inl rfl) (by decide),
    h.2.2.2.2 (.opDataType "points") gridLockedStore (.str "grid") rfl⟩

/-- C3: mode-mismatched IMT operations fail with the type conflict and
write nothing: a grid write on a points-locked container fails with the
type conflict leaving the state unchanged (so neither array is created),
`getIMTGrids` fails whenever the persisted lock is not `grid`, and
`getIMTArrays` fails whenever it is not `points`. -/
theorem claim_C3 :
    (∀ st imt mean meanMeta std stdMeta comp,
      getDataType st = .ok (some (.str "points")) →
      setIMTGrids st imt mean meanMeta std stdMeta comp =
        ((.error .typeConflict : Except Err Unit), st)) ∧
    (∀ st imt comp dt, getDataType st = .ok dt →
      dt ≠ some (.str "grid") →
      getIMTGrids st imt comp = .error .typeConflict) ∧
    (∀ st imt comp dt, getDataType st = .ok dt →
      dt ≠ some (.str "points") →
      getIMTArrays st imt comp = .error .typeConflict) := by
  refine ⟨?_, ?_, ?_⟩
  · intro st imt mean mm std sm comp h
    unfold setIMTGrids
    simp only [h]
    rw [if_pos (by decide)]
  · intro st imt comp dt h hne
    unfold getIMTGrids
    simp only [h]
    have hf : optEqStr dt "grid" = false := by
      cases hb : optEqStr dt "grid" with
      | false => rfl
      | true => exact absurd ((optEqStr_true_iff dt "grid").mp hb) hne
    rw [if_neg (by rw [hf]; simp)]
  · intro st imt comp dt h hne
    unfold getIMTArrays
    simp only [h]
    have hf : optEqStr dt "points" = false := by
      cases hb : optEqStr dt "points" with
      | false => rfl
      | true => exact absurd ((optEqStr_true_iff dt "points").mp hb) hne
    rw [if_neg (by rw [hf]; simp)]

/-- C3 (witness): the conflicts on concretely locked containers. -/
theorem claim_C3_witness :
    setIMTGrids pointsLockedStore "pga" zeros3 [] zeros3 [] "A" =
      ((.error .typeConflict : Except Err Unit), pointsLockedStore) ∧
    getIMTGrids pointsLockedStore "pga" "A" = .error .typeConflict ∧
    getIMTArrays gridLockedStore "pga" "A" = .error .typeConflict := by
  have h := claim_C3
  exact ⟨h.1 pointsLockedStore "pga" zeros3 [] zeros3 [] "A" rfl,
    h.2.1 pointsLockedStore "pga" "A" (some (.str "points")) rfl (by simp),
    h.2.2 gridLockedStore "pga" "A" (some (.str "grid")) rfl (by simp)⟩

/-- C5 (counterexample): `setRuptureDict` drops the existing `rupture`
entry BEFORE checking that the input is a mapping: calling it with a
non-mapping on a container holding a rupture dictionary raises the invalid
argument, yet the previously stored entry is gone afterwards. -/
theorem claim_C5_counterexample :
    getRuptureDict ruptureStore = .ok (.obj [("k", .str "v")]) ∧
    (setRuptureDict ruptureStore (.str "nope")).1 = .error .invalidArgument ∧
    getRuptureDict (setRuptureDict ruptureStore (.str "nope")).2 =
      .error .notFound := ⟨rfl, rfl, rfl⟩

/-- C5 (amended): `setStationDict` on a non-mapping fails fast with the
state unchanged; `setRuptureDict` on a non-mapping leaves the state
unchanged only when no `rupture` entry exists — when one exists, the call
still fails with the invalid argument but has already dropped the stored
entry, so a subsequent `getRuptureDict` fails with not-found. -/
theorem claim_C5_amended :
    (∀ st v, v.isObj = false →
      setStationDict st v = ((.error .invalidArgument : Except Err Unit), st)) ∧
    (∀ st v, v.isObj = false →
      (getDictionaries st).contains "rupture" = false →
      setRuptureDict st v = ((.error .invalidArgument : Except Err Unit), st)) ∧
    (∀ st v cs, v.isObj = false →
      assocGet st "dictionaries" = some (.group cs) →
      (cs.map Prod.fst).Nodup →
      (getDictionaries st).contains "rupture" = true →
      (setRuptureDict st v).1 = .error .invalidArgument ∧
      getRuptureDict (setRuptureDict st v).2 = .error .notFound) := by
  refine ⟨?_, ?_, ?_⟩
  · intro st v hv
    unfold setStationDict
    rw [if_neg (by rw [hv]; simp)]
  · intro st v hv hc
    unfold setRuptureDict
    rw [if_neg (by rw [hc]; simp), andThen_ok]
    rw [if_neg (by rw [hv]; simp)]
  · intro st v cs hv hd hn hc
    have hgd0 : getDictionaries st = childPaths cs := by
      unfold getDictionaries
      rw [hd]
      rfl
    have hc2 := hc
    rw [hgd0] at hc2
    have hel : List.elem "rupture" (childPaths cs) = true := hc2
    have hmem : "rupture" ∈ childPaths cs := List.mem_of_elem_eq_true hel
    obtain ⟨p, hp, hpk, hpn⟩ := (mem_childPaths_iff "rupture" (by decide) cs).mp hmem
    have hkeys : "rupture" ∈ cs.map Prod.fst := List.mem_map.mpr ⟨p, hp, hpk⟩
    obtain ⟨w, hw⟩ := Option.isSome_iff_exists.mp
      (assocGet_isSome_of_mem_keys cs "rupture" hkeys)
    have hdel : dropDictionary st [] "rupture" =
        (.ok (), assocSet st "dictionaries"
          (.group (assocDel cs "rupture"))) := by
      unfold dropDictionary deleteStore
      simp only [hd, deleteNode, hw]
    have hrun : setRuptureDict st v =
        ((.error .invalidArgument : Except Err Unit),
          assocSet st "dictionaries" (.group (assocDel cs "rupture"))) := by
      unfold setRuptureDict
      rw [if_pos hc, hdel, andThen_ok]
      rw [if_neg (by rw [hv]; simp)]
    rw [hrun]
    refine ⟨rfl, ?_⟩
    have hgd1 : getDictionaries (assocSet st "dictionaries"
        (.group (assocDel cs "rupture"))) =
        childPaths (assocDel cs "rupture") := by
      unfold getDictionaries
      rw [assocGet_assocSet_self]
      rfl
    have hnotmem : "rupture" ∉ childPaths (assocDel cs "rupture") := by
      intro hm
      obtain ⟨q, hq, hqk, hqn⟩ :=
        (mem_childPaths_iff "rupture" (by decide) _).mp hm
      have hqkeys : "rupture" ∈ (assocDel cs "rupture").map Prod.fst :=
        List.mem_map.mpr ⟨q, hq, hqk⟩
      have hsome := assocGet_isSome_of_mem_keys _ "rupture" hqkeys
      rw [assocGet_assocDel_self_of_nodup cs "rupture" hn] at hsome
      simp at hsome
    have hcf : (childPaths (assocDel cs "rupture")).contains "rupture" =
        false := by
      cases hcc : (childPaths (assocDel cs "rupture")).contains "rupture" with
      | false => rfl
      | true => exact absurd (List.mem_of_elem_eq_true hcc) hnotmem
    unfold getRuptureDict
    rw [hgd1, if_neg (by rw [hcf]; simp)]

/-- C5 (amended, witness): the three cases on concrete containers. -/
theorem claim_C5_amended_witness :
    setStationDict [] (.str "x") =
      ((.error .invalidArgument : Except Err Unit), []) ∧
    setRuptureDict [] (.str "x") =
      ((.error .invalidArgument : Except Err Unit), []) ∧
    ((setRuptureDict ruptureStore (.str "x")).1 = .error .invalidArgument ∧
      getRuptureDict (setRuptureDict ruptureStore (.str "x")).2 =
        .error .notFound) := by
  have h := claim_C5_amended
  exact ⟨h.1 [] (.str "x") rfl, h.2.1 [] (.str "x") rfl rfl,
    h.2.2 ruptureStore (.str "x")
      [("rupture", .dataset (.jsonBlob (.obj [("k", .str "v")])))]
      rfl rfl (by decide) rfl⟩

/-- C7: `dropIMT` fails with not-found when `arrays/imts` was never
created; on a well-formed store where the subtree exists it succeeds and
removes the IMT from every component group containing it, so
`getComponents(imt)` afterwards returns the empty sequence. -/
theorem claim_C7 :
    (∀ st imt, imtsNode st = .ok none →
      dropIMT st imt = ((.error .notFound : Except Err Unit), st)) ∧
    (∀ st imt acs ics,
      assocGet st "arrays" = some (.group acs) →
      assocGet acs "imts" = some (.group ics) →
      (ics.map Prod.fst).Nodup →
      (∀ p ∈ ics, ∃ ccs, p.2 = Node.group ccs ∧ (ccs.map Prod.fst).Nodup) →
      (dropIMT st imt).1 = .ok () ∧
      getComponents (dropIMT st imt).2 (some imt) = .ok ([] : List String)) := by
  constructor
  · intro st imt h
    unfold dropIMT
    simp only [h]
  · intro st imt acs ics h1 h2 hn hg
    have himts : imtsNode st = .ok (some (.group ics)) := by
      unfold imtsNode
      simp only [h1, h2]
    have hgrp : ∀ p ∈ ics, ∃ ccs, p.2 = Node.group ccs :=
      fun p hp => ⟨(hg p hp).choose, (hg p hp).choose_spec.1⟩
    have hcomps := getComponents_eq st imt acs ics h1 h2 hgrp hn
    have hnodup : ((ics.filter (fun p => hasNodeKey p.2 imt)).map
        Prod.fst).Nodup := by
      have hsub : List.Sublist (ics.filter (fun p => hasNodeKey p.2 imt)) ics :=
        List.filter_sublist _
      exact hn.sublist (List.Sublist.map Prod.fst hsub)
    have hin : ∀ p ∈ ics, hasNodeKey p.2 imt = true →
        p.1 ∈ (ics.filter (fun p => hasNodeKey p.2 imt)).map Prod.fst :=
      fun p hp hb => List.mem_map.mpr ⟨p, List.mem_filter.mpr ⟨hp, hb⟩, rfl⟩
    have hrem : ∀ c ∈ (ics.filter (fun p => hasNodeKey p.2 imt)).map Prod.fst,
        ∃ n, assocGet ics c = some n ∧ hasNodeKey n imt = true := by
      intro c hcm
      obtain ⟨p, hpf, hpc⟩ := List.mem_map.mp hcm
      obtain ⟨hpi, hpb⟩ := List.mem_filter.mp hpf
      refine ⟨p.2, ?_, hpb⟩
      rw [← hpc]
      exact assocGet_of_mem_nodup ics p hn hpi
    obtain ⟨hok, acs2, ics2, g1, g2, gn2, gg2, gz⟩ :=
      dropIMT_loop imt ((ics.filter (fun p => hasNodeKey p.2 imt)).map
        Prod.fst) st acs ics h1 h2 hn hg hnodup hin hrem
    unfold dropIMT
    simp only [himts, hcomps]
    refine ⟨hok, ?_⟩
    have hgrp2 : ∀ p ∈ ics2, ∃ ccs, p.2 = Node.group ccs :=
      fun p hp => ⟨(gg2 p hp).choose, (gg2 p hp).choose_spec.1⟩
    rw [getComponents_eq _ imt acs2 ics2 g1 g2 hgrp2 gn2]
    have hfe : ics2.filter (fun p => hasNodeKey p.2 imt) = [] :=
      List.filter_eq_nil_iff.mpr (fun p hp => by simp [gz p hp])
    rw [hfe]
    rfl

/-- C7 (witness): components `A` and `B` both containing `pga`, and the
never-created case. -/
theorem claim_C7_witness :
    dropIMT [] "pga" = ((.error .notFound : Except Err Unit), []) ∧
    ((dropIMT twoCompStore "pga").1 = .ok () ∧
      getComponents (dropIMT twoCompStore "pga").2 (some "pga") =
        .ok ([] : List String)) := by
  have h := claim_C7
  refine ⟨h.1 [] "pga" rfl, h.2 twoCompStore "pga"
    [("imts", .group [("A", .group [("pga", .group [])]),
      ("B", .group [("pga", .group [])])])]
    [("A", .group [("pga", .group [])]), ("B", .group [("pga", .group [])])]
    rfl rfl (by decide) ?_⟩
  intro p hp
  simp only [List.mem_cons, List.mem_singleton, List.not_mem_nil, or_false] at hp
  rcases hp with rfl | rfl <;> exact ⟨_, rfl, by decide⟩

/-- C8: on any container state where the respective entry is absent,
`getVersionHistory` returns the empty mapping without raising, while the
Config, Rupture, StationDict and Metadata getters each fail with
not-found. -/
theorem claim_C8 (st : Store)
    (hv : (getDictionaries st).contains "version_history" = false)
    (hc : (getDictionaries st).contains "config" = false)
    (hr : (getDictionaries st).contains "rupture" = false)
    (hs : (getDictionaries st).contains "stations_dict" = false)
    (hm : (getDictionaries st).contains "info.json" = false) :
    getVersionHistory st = .ok (.obj []) ∧
    getConfig st = .error .notFound ∧
    getRuptureDict st = .error .notFound ∧
    getStationDict st = .error .notFound ∧
    getMetadata st = .error .notFound := by
  unfold getVersionHistory getConfig getRuptureDict getStationDict getMetadata
  rw [if_neg (by rw [hv]; simp), if_neg (by rw [hc]; simp),
    if_neg (by rw [hr]; simp), if_neg (by rw [hs]; simp),
    if_neg (by rw [hm]; simp)]
  exact ⟨rfl, rfl, rfl, rfl, rfl⟩

/-- C8 (witness): the freshly created container. -/
theorem claim_C8_witness :
    getVersionHistory ([] : Store) = .ok (.obj []) ∧
    getConfig ([] : Store) = .error .notFound ∧
    getRuptureDict ([] : Store) = .error .notFound ∧
    getStationDict ([] : Store) = .error .notFound ∧
    getMetadata ([] : Store) = .error .notFound :=
  claim_C8 [] rfl rfl rfl rfl rfl

/-- C9: the leaf enumeration reports an empty group as a leaf path — after
`setDictionary(['sub'], 'x', d)` followed by `dropDictionary(['sub'], 'x')`,
`getDictionaries()` returns exactly `['sub']` although no dictionary entry
exists there (reading it back fails with not-found): listing cannot
distinguish an empty group from a stored leaf. -/
theorem claim_C9 (d : JValue) :
    getDictionaries
      (dropDictionary (setDictionary [] ["sub"] "x" d).2 ["sub"] "x").2 =
      ["sub"] ∧
    getDictionary
      (dropDictionary (setDictionary [] ["sub"] "x" d).2 ["sub"] "x").2
      ["sub"] "x" = .error .notFound ∧
    nodePaths (.group [("sub", .group [])]) = ["sub"] := ⟨rfl, rfl, rfl⟩

/-- C9 (witness): the scenario at a concrete dictionary value. -/
theorem claim_C9_witness :
    getDictionaries
      (dropDictionary (setDictionary [] ["sub"] "x" .null).2 ["sub"] "x").2 =
      ["sub"] ∧
    getDictionary
      (dropDictionary (setDictionary [] ["sub"] "x" .null).2 ["sub"] "x").2
      ["sub"] "x" = .error .notFound ∧
    nodePaths (.group [("sub", .group [])]) = ["sub"] := claim_C9 .null

/-- C10 (counterexample): `getIMTs(component)` can return the empty
sequence although `arrays/imts` exists: a grid write followed by `dropIMT`
leaves the component group behind but empty, and `getIMTs` on it returns
`[]`. -/
theorem claim_C10_counterexample :
    hasIMTSubtree emptyComponentStore = true ∧
    getIMTs emptyComponentStore (some "A") = .ok ([] : List String) :=
  ⟨rfl, rfl⟩

/-- C10 (amended): `getIMTs(component)` returns `[]` when `arrays/imts`
was never created and also when the named component group exists but is
empty; when `arrays/imts` exists and the named component is absent, the
direct subscript raises the missing-key error. -/
theorem claim_C10_amended :
    (∀ st comp, imtsNode st = .ok none →
      getIMTs st (some comp) = .ok ([] : List String)) ∧
    (∀ st comp ics, imtsNode st = .ok (some (.group ics)) →
      assocGet ics comp = none →
      getIMTs st (some comp) = .error .notFound) ∧
    (∀ st comp ics ccs, imtsNode st = .ok (some (.group ics)) →
      assocGet ics comp = some (.group ccs) →
      getIMTs st (some comp) = .ok (ccs.map Prod.fst)) := by
  refine ⟨?_, ?_, ?_⟩
  · intro st comp h
    unfold getIMTs
    simp only [h]
  · intro st comp ics h hcg
    unfold getIMTs
    simp only [h, hcg]
  · intro st comp ics ccs h hcg
    unfold getIMTs
    simp only [h, hcg, nodeKeys]

/-- C10 (amended, witness): the three outcomes on concrete stores. -/
theorem claim_C10_amended_witness :
    getIMTs [] (some "A") = .ok ([] : List String) ∧
    getIMTs twoCompStore (some "C") = .error .notFound ∧
    getIMTs twoCompStore (some "A") = .ok ["pga"] := by
  have h := claim_C10_amended
  exact ⟨h.1 [] "A" rfl,
    h.2.1 twoCompStore "C"
      [("A", .group [("pga", .group [])]), ("B", .group [("pga", .group [])])]
      rfl rfl,
    h.2.2 twoCompStore "A"
      [("A", .group [("pga", .group [])]), ("B", .group [("pga", .group [])])]
      [("pga", .group [])] rfl rfl⟩

end ImpactUtils
